import Mathlib

/-!
# Unit conversion engine of `script.js`

A shallow embedding of the conversion core of `src/script.js`: the registry
`unitCategories`, the temperature rule `unitCategories.temperature.convert`, and the
part of `performConversion` that builds the `results` array (lines 161-185), called
`convertAll` in the specification.

Conventions of the embedding.

* A JavaScript number is a rational, `Infinity`, `-Infinity` or `NaN` (`JsNum`).  The
  code is embedded twice.  The definitions named after the source compute with exact
  rationals: literals and operations are not rounded.  The definitions whose name ends
  in `Rounded` are the same code with a rounding function at every literal and
  operation; with `JsNum.binary64` they compute as the program does, in IEEE 754
  binary64 with round to nearest, ties to even.  A statement about exact rationals
  says so.  The sign of zero is not modelled; a division by zero treats the divisor as
  `+0`.
* A JavaScript object literal is an association list in declaration order, which is
  the order `Object.entries` enumerates (no key of the registry is an integer index).
  Reading a property consults the own properties first and the properties that every
  object literal inherits from `Object.prototype` second.
* A `TypeError` raised while the loop runs is recorded together with the content the
  `results` array had at that moment.
* For the caller path, `performConversion` takes the parsed value and the parsed
  precision as arguments, and `resultsTable.innerHTML` is a value of type `Content`:
  a message or the rows of the table.  The decimal string `toFixed` prints is kept as
  the pair of the number and its count of decimals.
-/

namespace UnitConverter

/-! ## JavaScript values -/

/-- A JavaScript number: a finite value (an exact rational), an infinity, or NaN. -/
inductive JsNum where
  | fin (q : ℚ)
  | inf (negative : Bool)
  | nan
  deriving DecidableEq

namespace JsNum

/-- The exact `+` of two numbers; the binary64 sum is `(x.add y).binary64`. -/
def add : JsNum → JsNum → JsNum
  | .fin a, .fin b => .fin (a + b)
  | .fin _, .inf s => .inf s
  | .inf s, .fin _ => .inf s
  | .inf s, .inf t => if s = t then .inf s else .nan
  | .nan, _ => .nan
  | _, .nan => .nan

/-- The exact `-` of two numbers; the binary64 difference is `(x.sub y).binary64`. -/
def sub : JsNum → JsNum → JsNum
  | .fin a, .fin b => .fin (a - b)
  | .fin _, .inf s => .inf (!s)
  | .inf s, .fin _ => .inf s
  | .inf s, .inf t => if s = t then .nan else .inf s
  | .nan, _ => .nan
  | _, .nan => .nan

/-- The exact `*` of two numbers; the binary64 product is `(x.mul y).binary64`. -/
def mul : JsNum → JsNum → JsNum
  | .fin a, .fin b => .fin (a * b)
  | .fin a, .inf s => if a = 0 then .nan else .inf (xor s (decide (a < 0)))
  | .inf s, .fin b => if b = 0 then .nan else .inf (xor s (decide (b < 0)))
  | .inf s, .inf t => .inf (xor s t)
  | .nan, _ => .nan
  | _, .nan => .nan

/-- The exact `/` of two numbers; a zero divisor counts as `+0`.  The binary64
quotient is `(x.div y).binary64`. -/
def div : JsNum → JsNum → JsNum
  | .fin a, .fin b =>
    if b = 0 then (if a = 0 then .nan else .inf (decide (a < 0))) else .fin (a / b)
  | .fin _, .inf _ => .fin 0
  | .inf s, .fin b => .inf (xor s (decide (b < 0)))
  | .inf _, .inf _ => .nan
  | .nan, _ => .nan
  | _, .nan => .nan

/-- The global `isNaN` on a number. -/
def isNaN : JsNum → Bool
  | .nan => true
  | _ => false

end JsNum

/-- The JavaScript values that occur in the conversion code. -/
inductive JsVal where
  | number (n : JsNum)
  | undefined
  | null
  deriving DecidableEq

/-- A finite number as a value. -/
abbrev JsVal.num (q : ℚ) : JsVal := .number (.fin q)

/-- The abstract operation ToNumber applied by the arithmetic operators. -/
def toNumber : JsVal → JsNum
  | .number n => n
  | .undefined => .nan
  | .null => .fin 0

/-! ## Property access -/

/-- Names of the properties an object literal inherits from `Object.prototype`. -/
def objectPrototypeKeys : List String :=
  ["constructor", "hasOwnProperty", "isPrototypeOf", "propertyIsEnumerable",
   "toLocaleString", "toString", "valueOf", "__proto__", "__defineGetter__",
   "__defineSetter__", "__lookupGetter__", "__lookupSetter__"]

/-- The result of `obj[key]` on an object literal: an own property, an object
inherited from `Object.prototype` (a function, or the prototype itself), or
`undefined`. -/
inductive Lookup (α : Type) where
  | own (a : α)
  | inherited
  | absent

/-- The expression `obj[key]` for an object literal `obj`. -/
def getProperty {α : Type} (obj : List (String × α)) (key : String) : Lookup α :=
  match obj.lookup key with
  | some a => .own a
  | none => if key ∈ objectPrototypeKeys then .inherited else .absent

/-! ## The registry -/

/-- One unit of a category: `{ name, toBase }`. -/
structure UnitDefinition where
  name : String
  toBase : JsVal

/-- One category: `{ name, units, convert? }`. -/
structure UnitCategory where
  name : String
  units : List (String × UnitDefinition)
  convert : Option (JsNum → String → String → JsVal)

/-- The function `unitCategories.temperature.convert` (lines 50-74). A `switch`
with no matching case leaves `celsius` undefined, respectively falls off the end of
the function, which returns `undefined`. -/
def temperatureConvert (value : JsNum) (fromUnit toUnit : String) : JsVal :=
  let celsius : JsVal :=
    if fromUnit = "c" then .number value
    else if fromUnit = "f" then .number (((value.sub (.fin 32)).mul (.fin 5)).div (.fin 9))
    else if fromUnit = "k" then .number (value.sub (.fin 273.15))
    else .undefined
  if toUnit = "c" then celsius
  else if toUnit = "f" then .number ((((toNumber celsius).mul (.fin 9)).div (.fin 5)).add (.fin 32))
  else if toUnit = "k" then .number ((toNumber celsius).add (.fin 273.15))
  else .undefined

/-- The category `pressure`. -/
def pressure : UnitCategory where
  name := "Pressão"
  units :=
    [("bar", ⟨"BAR", .num 1⟩),
     ("pa", ⟨"Pascal (Pa)", .num 0.00001⟩),
     ("kpa", ⟨"Kilopascal (kPa)", .num 0.01⟩),
     ("mpa", ⟨"Megapascal (MPa)", .num 10⟩),
     ("psi", ⟨"PSI", .num 0.0689476⟩),
     ("atm", ⟨"Atmosfera (atm)", .num 1.01325⟩),
     ("mmhg", ⟨"Milímetro de Mercúrio (mmHg)", .num 0.00133322⟩),
     ("torr", ⟨"Torr", .num 0.00133322⟩)]
  convert := none

/-- The category `length`. -/
def length : UnitCategory where
  name := "Comprimento"
  units :=
    [("m", ⟨"Metro (m)", .num 1⟩),
     ("km", ⟨"Quilômetro (km)", .num 1000⟩),
     ("cm", ⟨"Centímetro (cm)", .num 0.01⟩),
     ("mm", ⟨"Milímetro (mm)", .num 0.001⟩),
     ("mi", ⟨"Milha (mi)", .num 1609.34⟩),
     ("yd", ⟨"Jarda (yd)", .num 0.9144⟩),
     ("ft", ⟨"Pé (ft)", .num 0.3048⟩),
     ("in", ⟨"Polegada (in)", .num 0.0254⟩)]
  convert := none

/-- The category `weight`. -/
def weight : UnitCategory where
  name := "Massa"
  units :=
    [("kg", ⟨"Quilograma (kg)", .num 1⟩),
     ("g", ⟨"Grama (g)", .num 0.001⟩),
     ("mg", ⟨"Miligrama (mg)", .num 0.000001⟩),
     ("t", ⟨"Tonelada (t)", .num 1000⟩),
     ("lb", ⟨"Libra (lb)", .num 0.453592⟩),
     ("oz", ⟨"Onça (oz)", .num 0.0283495⟩)]
  convert := none

/-- The category `temperature`, the only one with a `convert` function. -/
def temperature : UnitCategory where
  name := "Temperatura"
  units :=
    [("c", ⟨"Celsius (°C)", .null⟩),
     ("f", ⟨"Fahrenheit (°F)", .null⟩),
     ("k", ⟨"Kelvin (K)", .null⟩)]
  convert := some temperatureConvert

/-- The category `volume`. -/
def volume : UnitCategory where
  name := "Volume"
  units :=
    [("l", ⟨"Litro (L)", .num 1⟩),
     ("ml", ⟨"Mililitro (mL)", .num 0.001⟩),
     ("m3", ⟨"Metro Cúbico (m³)", .num 1000⟩),
     ("cm3", ⟨"Centímetro Cúbico (cm³)", .num 0.001⟩),
     ("gal", ⟨"Galão (gal)", .num 3.78541⟩),
     ("qt", ⟨"Quarto (qt)", .num 0.946353⟩),
     ("pt", ⟨"Pint (pt)", .num 0.473176⟩),
     ("cup", ⟨"Xícara (cup)", .num 0.236588⟩)]
  convert := none

/-- The category `area`. -/
def area : UnitCategory where
  name := "Área"
  units :=
    [("m2", ⟨"Metro Quadrado (m²)", .num 1⟩),
     ("km2", ⟨"Quilômetro Quadrado (km²)", .num 1000000⟩),
     ("cm2", ⟨"Centímetro Quadrado (cm²)", .num 0.0001⟩),
     ("ha", ⟨"Hectare (ha)", .num 10000⟩),
     ("acre", ⟨"Acre", .num 4046.86⟩),
     ("ft2", ⟨"Pé Quadrado (ft²)", .num 0.092903⟩)]
  convert := none

/-- The constant `unitCategories` (lines 4-100). -/
def unitCategories : List (String × UnitCategory) :=
  [("pressure", pressure), ("length", length), ("weight", weight),
   ("temperature", temperature), ("volume", volume), ("area", area)]

/-! ## Building the results array -/

/-- One element pushed on `results`: `{ unit, value, isSource }`. -/
structure Entry where
  unit : String
  value : JsVal
  isSource : Bool
  deriving DecidableEq

/-- How the construction of `results` ends: the loop runs to completion, or a
`TypeError` is raised while `results` holds `built`. -/
inductive Outcome where
  | returned (results : List Entry)
  | typeError (built : List Entry)
  deriving DecidableEq

/-- The expression `units[k].toBase`: reading a property of `undefined` raises a
`TypeError` (`none`); an inherited object has no `toBase`. -/
def readToBase (units : List (String × UnitDefinition)) (k : String) : Option JsVal :=
  match getProperty units k with
  | .own d => some d.toBase
  | .inherited => some .undefined
  | .absent => none

/-- The body of the loop up to the assignment of `convertedValue` (lines 169-178). -/
def convertedValue (categoryData : UnitCategory) (fromUnit : String) (value : JsNum)
    (key : String) : Option JsVal :=
  match categoryData.convert with
  | some convert => some (convert value fromUnit key)
  | none =>
    match readToBase categoryData.units fromUnit with
    | none => none
    | some fromBase =>
      let baseValue := value.mul (toNumber fromBase)
      match readToBase categoryData.units key with
      | none => none
      | some keyBase => some (.number (baseValue.div (toNumber keyBase)))

/-- The loop `for (const [key, unit] of Object.entries(units))` (lines 168-185),
started on the entries still to visit and the current content of `results`. -/
def convertLoop (categoryData : UnitCategory) (fromUnit : String) (value : JsNum) :
    List (String × UnitDefinition) → List Entry → Outcome
  | [], results => .returned results
  | (key, unit) :: rest, results =>
    match convertedValue categoryData fromUnit value key with
    | none => .typeError results
    | some v =>
      convertLoop categoryData fromUnit value rest
        (results ++ [{ unit := unit.name, value := v, isSource := decide (key = fromUnit) }])

/-- Lines 161-185 of `performConversion`: the `results` array for a category key, a
source unit key and a value.  When `unitCategories[category]` is `undefined`, reading
`.units` raises; when it is an object inherited from `Object.prototype`, its `.units`
is `undefined` and `Object.entries` raises.  In both cases `results` is still empty. -/
def convertAll (category fromUnit : String) (value : JsNum) : Outcome :=
  match getProperty unitCategories category with
  | .own categoryData =>
    convertLoop categoryData fromUnit value categoryData.units []
  | .inherited => .typeError []
  | .absent => .typeError []

/-- Lines 161-188 up to the call of `displayResults`: after the loop, the argument
`units[fromUnit].name` is evaluated, which raises a `TypeError` when `units[fromUnit]`
is `undefined`; `results` then holds every entry the loop pushed. -/
def resultsBeforeDisplay (category fromUnit : String) (value : JsNum) : Outcome :=
  match getProperty unitCategories category, convertAll category fromUnit value with
  | .own categoryData, .returned results =>
    match getProperty categoryData.units fromUnit with
    | .own _ => .returned results
    | .inherited => .returned results
    | .absent => .typeError results
  | _, outcome => outcome

/-- The unit keys of a category in declaration order. -/
def unitKeys (categoryData : UnitCategory) : List String :=
  categoryData.units.map Prod.fst

/-- The entry of `convertAll category fromUnit value` that was built for unit key `k`:
entries are matched with the unit keys by position. -/
def entryFor (category fromUnit : String) (value : JsNum) (k : String) : Option Entry :=
  match getProperty unitCategories category, convertAll category fromUnit value with
  | .own categoryData, .returned results => (List.zip (unitKeys categoryData) results).lookup k
  | _, _ => none

/-- The value of the entry for unit key `k`. -/
def valueFor (category fromUnit : String) (value : JsNum) (k : String) : Option JsVal :=
  (entryFor category fromUnit value k).map Entry.value

/-- The entry the loop pushes for the registry pair `p` when its conversion succeeds. -/
def pushedEntry (categoryData : UnitCategory) (fromUnit : String) (value : JsNum)
    (p : String × UnitDefinition) : Entry :=
  { unit := p.2.name
    value := (convertedValue categoryData fromUnit value p.1).getD .undefined
    isSource := decide (p.1 = fromUnit) }

/-- A category converted by the standard algorithm: no `convert` function, and every
unit carries a positive `toBase`. -/
def LinearCategory (categoryData : UnitCategory) : Prop :=
  categoryData.convert = none ∧
    ∀ p ∈ categoryData.units, ∃ t : ℚ, 0 < t ∧ p.2.toBase = .num t

/-- The three temperature units `c`, `f`, `k`. -/
inductive TempUnit where
  | c
  | f
  | k
  deriving DecidableEq

/-- The registry key of a temperature unit. -/
def TempUnit.key : TempUnit → String
  | .c => "c"
  | .f => "f"
  | .k => "k"

/-- Reference step 1 of the temperature rule, as the specification words it:
`c`: unchanged, `f`: `(value - 32) × 5/9`, `k`: `value - 273.15`. -/
def specToCelsius : TempUnit → ℚ → ℚ
  | .c, x => x
  | .f, x => (x - 32) * (5 / 9)
  | .k, x => x - 273.15

/-- Reference step 2 of the temperature rule, as the specification words it:
`c`: `celsius`, `f`: `celsius × 9/5 + 32`, `k`: `celsius + 273.15`. -/
def specFromCelsius : TempUnit → ℚ → ℚ
  | .c, x => x
  | .f, x => x * (9 / 5) + 32
  | .k, x => x + 273.15

/-! ## The caller path: `performConversion` and `displayResults` -/

/-- The exceptions the conversion path can raise. -/
inductive JsError where
  | typeError
  | rangeError
  deriving DecidableEq

/-- The number of decimals `Number.prototype.toFixed` works with for its argument:
NaN counts as 0, a fraction is truncated towards zero, and anything outside 0..100
raises a `RangeError` (`none`). -/
def toFixedDigits (precision : JsNum) : Option Nat :=
  match precision with
  | .nan => some 0
  | .inf _ => none
  | .fin q =>
    let t : Int := if 0 ≤ q then ⌊q⌋ else ⌈q⌉
    if 0 ≤ t ∧ t ≤ 100 then some t.toNat else none

/-- One `<tr>` of the results table: the first cell `${result.unit}${marker}`, whether
the row carries the source style, and the number printed in the second cell together
with its count of decimals.  The decimal string itself is not spelled out. -/
structure Row where
  label : String
  highlighted : Bool
  value : JsNum
  digits : Nat
  deriving DecidableEq

/-- What is assigned to `resultsTable.innerHTML`. -/
inductive Content where
  | infoMessage (message : String)
  | errorMessage (message : String)
  | table (rows : List Row)
  deriving DecidableEq

/-- The callback of `results.forEach` in `displayResults` (lines 198-205):
`result.value.toFixed(precision)` raises a `TypeError` when the value is `undefined`
or `null`, and a `RangeError` when the precision is out of range. -/
def displayRow (precision : JsNum) (result : Entry) : Except JsError Row :=
  match result.value with
  | .number n =>
    match toFixedDigits precision with
    | some digits =>
      .ok { label := result.unit ++ (if result.isSource then " ← (valor original)" else "")
            highlighted := result.isSource
            value := n
            digits := digits }
    | none => .error .rangeError
  | .undefined => .error .typeError
  | .null => .error .typeError

/-- The rows `results.forEach` appends, in order, up to the first exception. -/
def displayRows (precision : JsNum) : List Entry → Except JsError (List Row)
  | [] => .ok []
  | result :: rest =>
    match displayRow precision result with
    | .error e => .error e
    | .ok row =>
      match displayRows precision rest with
      | .error e => .error e
      | .ok rows => .ok (row :: rows)

/-- The function `displayResults` (lines 192-211).  Its parameters `originalValue`
and `originalUnit` are never read by the body and are left out. -/
def displayResults (results : List Entry) (precision : JsNum) : Except JsError Content :=
  match displayRows precision results with
  | .ok rows => .ok (.table rows)
  | .error e => .error e

/-- The function `showError` (lines 214-216). -/
def showError (message : String) : Content := .errorMessage message

/-- The function `showInfoMessage` (lines 219-221). -/
def showInfoMessage (message : String) : Content := .infoMessage message

/-- How a call of `performConversion` ends: the local array `results` (`none` when
line 166 was not reached), the content assigned to `resultsTable.innerHTML` (`none`
when nothing was assigned), and the exception that ended the call, if any. -/
structure Run where
  results : Option (List Entry)
  innerHTML : Option Content
  error : Option JsError

/-- The function `performConversion` (lines 149-189), given the parsed input
`parseFloat(valueInput.value)`, the two selections and the parsed precision
`parseInt(precisionSelect.value)`. -/
def performConversion (value : JsNum) (category fromUnit : String) (precision : JsNum) : Run :=
  if value.isNaN then
    { results := none
      innerHTML := some (showError "Por favor, insira um valor numérico válido")
      error := none }
  else
    match getProperty unitCategories category with
    | .absent => { results := none, innerHTML := none, error := some .typeError }
    | .inherited => { results := some [], innerHTML := none, error := some .typeError }
    | .own categoryData =>
      match convertLoop categoryData fromUnit value categoryData.units [] with
      | .typeError built =>
        { results := some built, innerHTML := none, error := some .typeError }
      | .returned results =>
        match getProperty categoryData.units fromUnit with
        | .absent => { results := some results, innerHTML := none, error := some .typeError }
        | _ =>
          match displayResults results precision with
          | .ok content => { results := some results, innerHTML := some content, error := none }
          | .error e => { results := some results, innerHTML := none, error := some e }

/-! ## Binary64 arithmetic

The definitions above compute with exact rationals.  The source computes in IEEE 754
binary64: every numeric literal denotes the nearest binary64 value, and the result of
every `+`, `-`, `*`, `/` is the exact result rounded to the nearest binary64 value
(ties to even).  The definitions below are the same code with a rounding function
`rnd` applied at each of these places; with `rnd := JsNum.binary64` they are the
program as it runs, and with `rnd := id` they are the exact definitions above. -/

/-- The integer nearest to a rational, a tie going to the even neighbour. -/
def roundHalfEven (y : ℚ) : ℤ :=
  if y - ⌊y⌋ < 1 / 2 then ⌊y⌋
  else if 1 / 2 < y - ⌊y⌋ then ⌊y⌋ + 1
  else if ⌊y⌋ % 2 = 0 then ⌊y⌋ else ⌊y⌋ + 1

/-- The binary64 value nearest to a rational (round to nearest, ties to even): 53
significant bits with binary exponents from -1022 to 1023, the fixed spacing
`2^-1074` below `2^-1022`, and an infinity when the rounded magnitude reaches
`2^1024`. -/
def roundBinary64 (q : ℚ) : JsNum :=
  if q = 0 then .fin 0
  else
    let e : ℤ := max (Int.log 2 |q|) (-1022)
    let ulp : ℚ := 2 ^ (e - 52)
    let x : ℚ := roundHalfEven (|q| / ulp) * ulp
    if 2 ^ (1024 : ℤ) ≤ x then .inf (decide (q < 0))
    else .fin (if q < 0 then -x else x)

/-- Rounding of a number to binary64; the infinities and NaN are binary64 values. -/
def JsNum.binary64 : JsNum → JsNum
  | .fin q => roundBinary64 q
  | .inf s => .inf s
  | .nan => .nan

/-- The function `unitCategories.temperature.convert` (lines 50-74) with the literal
`273.15` and every operation rounded by `rnd`; the literals 32, 5 and 9 are binary64
values. -/
def temperatureConvertRounded (rnd : JsNum → JsNum) (value : JsNum)
    (fromUnit toUnit : String) : JsVal :=
  let celsius : JsVal :=
    if fromUnit = "c" then .number value
    else if fromUnit = "f" then
      .number (rnd ((rnd ((rnd (value.sub (.fin 32))).mul (.fin 5))).div (.fin 9)))
    else if fromUnit = "k" then .number (rnd (value.sub (rnd (.fin 273.15))))
    else .undefined
  if toUnit = "c" then celsius
  else if toUnit = "f" then
    .number (rnd ((rnd ((rnd ((toNumber celsius).mul (.fin 9))).div (.fin 5))).add (.fin 32)))
  else if toUnit = "k" then .number (rnd ((toNumber celsius).add (rnd (.fin 273.15))))
  else .undefined

/-- The category `temperature` with the rounded rule. -/
def temperatureRounded (rnd : JsNum → JsNum) : UnitCategory :=
  { temperature with convert := some (temperatureConvertRounded rnd) }

/-- The constant `unitCategories` with the rounded temperature rule; the `toBase`
literals are rounded where they are read. -/
def unitCategoriesRounded (rnd : JsNum → JsNum) : List (String × UnitCategory) :=
  [("pressure", pressure), ("length", length), ("weight", weight),
   ("temperature", temperatureRounded rnd), ("volume", volume), ("area", area)]

/-- The body of the loop up to the assignment of `convertedValue` (lines 169-178),
with the `toBase` literals and both operations rounded by `rnd`. -/
def convertedValueRounded (rnd : JsNum → JsNum) (categoryData : UnitCategory)
    (fromUnit : String) (value : JsNum) (key : String) : Option JsVal :=
  match categoryData.convert with
  | some convert => some (convert value fromUnit key)
  | none =>
    match readToBase categoryData.units fromUnit with
    | none => none
    | some fromBase =>
      let baseValue := rnd (value.mul (rnd (toNumber fromBase)))
      match readToBase categoryData.units key with
      | none => none
      | some keyBase => some (.number (rnd (baseValue.div (rnd (toNumber keyBase)))))

/-- The loop of lines 168-185 over the rounded conversion. -/
def convertLoopRounded (rnd : JsNum → JsNum) (categoryData : UnitCategory)
    (fromUnit : String) (value : JsNum) :
    List (String × UnitDefinition) → List Entry → Outcome
  | [], results => .returned results
  | (key, unit) :: rest, results =>
    match convertedValueRounded rnd categoryData fromUnit value key with
    | none => .typeError results
    | some v =>
      convertLoopRounded rnd categoryData fromUnit value rest
        (results ++ [{ unit := unit.name, value := v, isSource := decide (key = fromUnit) }])

/-- Lines 161-185 of `performConversion` over the rounded conversion. -/
def convertAllRounded (rnd : JsNum → JsNum) (category fromUnit : String)
    (value : JsNum) : Outcome :=
  match getProperty (unitCategoriesRounded rnd) category with
  | .own categoryData =>
    convertLoopRounded rnd categoryData fromUnit value categoryData.units []
  | .inherited => .typeError []
  | .absent => .typeError []

/-- The entry of `convertAllRounded rnd category fromUnit value` built for unit key
`k`. -/
def entryForRounded (rnd : JsNum → JsNum) (category fromUnit : String) (value : JsNum)
    (k : String) : Option Entry :=
  match getProperty (unitCategoriesRounded rnd) category,
      convertAllRounded rnd category fromUnit value with
  | .own categoryData, .returned results => (List.zip (unitKeys categoryData) results).lookup k
  | _, _ => none

/-- The value of the entry for unit key `k` over the rounded conversion. -/
def valueForRounded (rnd : JsNum → JsNum) (category fromUnit : String) (value : JsNum)
    (k : String) : Option JsVal :=
  (entryForRounded rnd category fromUnit value k).map Entry.value

/-- The entry the rounded loop pushes for the registry pair `p`. -/
def pushedEntryRounded (rnd : JsNum → JsNum) (categoryData : UnitCategory)
    (fromUnit : String) (value : JsNum) (p : String × UnitDefinition) : Entry :=
  { unit := p.2.name
    value := (convertedValueRounded rnd categoryData fromUnit value p.1).getD .undefined
    isSource := decide (p.1 = fromUnit) }

/-! ## Lemmas on association lists and on the loop -/

theorem lookup_cons_eq {α : Type} (k : String) (a : α) (l : List (String × α)) :
    ((k, a) :: l).lookup k = some a := by
  simp [List.lookup]

theorem lookup_cons_ne {α : Type} {k k0 : String} (a : α) (l : List (String × α))
    (h : k ≠ k0) : ((k0, a) :: l).lookup k = l.lookup k := by
  have hb : (k == k0) = false := by simpa using h
  simp [List.lookup, hb]

theorem lookup_of_mem_keys {α : Type} (l : List (String × α)) (k : String)
    (h : k ∈ l.map Prod.fst) : ∃ a, l.lookup k = some a ∧ (k, a) ∈ l := by
  induction l with
  | nil => simp at h
  | cons p rest ih =>
    obtain ⟨k0, a0⟩ := p
    by_cases hk : k = k0
    · subst hk
      exact ⟨a0, by simp [List.lookup], by simp⟩
    · have hmem : k ∈ rest.map Prod.fst := by
        simpa [hk] using h
      obtain ⟨a, h1, h2⟩ := ih hmem
      refine ⟨a, ?_, by simp [h2]⟩
      have hb : (k == k0) = false := by simpa using hk
      simp [List.lookup, hb, h1]

theorem lookup_zip_map {α β : Type} (f : String × α → β) (l : List (String × α)) (k : String) :
    (List.zip (l.map Prod.fst) (l.map f)).lookup k = (l.find? (fun p => p.1 == k)).map f := by
  induction l with
  | nil => simp [List.lookup]
  | cons p rest ih =>
    obtain ⟨k0, a0⟩ := p
    by_cases hk : k = k0
    · subst hk
      simp [List.lookup]
    · have hb : (k == k0) = false := by simpa using hk
      have hb2 : (k0 == k) = false := by simpa using fun h => hk h.symm
      simp only [List.map_cons, List.zip_cons_cons, List.lookup, hb, List.find?, hb2]
      exact ih

theorem find_of_mem_keys {α : Type} (l : List (String × α)) (k : String)
    (h : k ∈ l.map Prod.fst) : ∃ a, l.find? (fun p => p.1 == k) = some (k, a) ∧ (k, a) ∈ l := by
  induction l with
  | nil => simp at h
  | cons p rest ih =>
    obtain ⟨k0, a0⟩ := p
    by_cases hk : k = k0
    · subst hk
      exact ⟨a0, by simp [List.find?], by simp⟩
    · have hmem : k ∈ rest.map Prod.fst := by
        simpa [hk] using h
      obtain ⟨a, h1, h2⟩ := ih hmem
      refine ⟨a, ?_, by simp [h2]⟩
      have hb2 : (k0 == k) = false := by simpa using fun h => hk h.symm
      simp [List.find?, hb2, h1]

theorem convertLoop_returned (categoryData : UnitCategory) (fromUnit : String) (value : JsNum)
    (rest : List (String × UnitDefinition)) (results : List Entry)
    (h : ∀ p ∈ rest, convertedValue categoryData fromUnit value p.1 ≠ none) :
    convertLoop categoryData fromUnit value rest results =
      .returned (results ++ rest.map (pushedEntry categoryData fromUnit value)) := by
  induction rest generalizing results with
  | nil => simp [convertLoop]
  | cons p rest ih =>
    obtain ⟨key, unit⟩ := p
    have hp := h (key, unit) (by simp)
    cases hv : convertedValue categoryData fromUnit value key with
    | none => exact absurd hv hp
    | some v =>
      have hrest : ∀ q ∈ rest, convertedValue categoryData fromUnit value q.1 ≠ none :=
        fun q hq => h q (by simp [hq])
      simp [convertLoop, hv, ih _ hrest, pushedEntry]

theorem convertLoop_typeError (categoryData : UnitCategory) (fromUnit : String) (value : JsNum)
    (rest : List (String × UnitDefinition)) (results : List Entry)
    (hne : rest ≠ [])
    (h : ∀ k, convertedValue categoryData fromUnit value k = none) :
    convertLoop categoryData fromUnit value rest results = .typeError results := by
  cases rest with
  | nil => exact absurd rfl hne
  | cons p rest =>
    obtain ⟨key, unit⟩ := p
    simp [convertLoop, h key]

theorem registry_cases (category : String) (categoryData : UnitCategory)
    (h : getProperty unitCategories category = .own categoryData) :
    (category = "pressure" ∧ categoryData = pressure) ∨
    (category = "length" ∧ categoryData = length) ∨
    (category = "weight" ∧ categoryData = weight) ∨
    (category = "temperature" ∧ categoryData = temperature) ∨
    (category = "volume" ∧ categoryData = volume) ∨
    (category = "area" ∧ categoryData = area) := by
  unfold getProperty at h
  cases hl : unitCategories.lookup category with
  | none =>
    rw [hl] at h
    simp only at h
    split at h <;> cases h
  | some c =>
    rw [hl] at h
    simp only [Lookup.own.injEq] at h
    subst h
    unfold unitCategories at hl
    by_cases h1 : category = "pressure"
    · subst h1
      rw [lookup_cons_eq] at hl
      exact Or.inl ⟨rfl, (Option.some.inj hl).symm⟩
    rw [lookup_cons_ne _ _ h1] at hl
    by_cases h2 : category = "length"
    · subst h2
      rw [lookup_cons_eq] at hl
      exact Or.inr (Or.inl ⟨rfl, (Option.some.inj hl).symm⟩)
    rw [lookup_cons_ne _ _ h2] at hl
    by_cases h3 : category = "weight"
    · subst h3
      rw [lookup_cons_eq] at hl
      exact Or.inr (Or.inr (Or.inl ⟨rfl, (Option.some.inj hl).symm⟩))
    rw [lookup_cons_ne _ _ h3] at hl
    by_cases h4 : category = "temperature"
    · subst h4
      rw [lookup_cons_eq] at hl
      exact Or.inr (Or.inr (Or.inr (Or.inl ⟨rfl, (Option.some.inj hl).symm⟩)))
    rw [lookup_cons_ne _ _ h4] at hl
    by_cases h5 : category = "volume"
    · subst h5
      rw [lookup_cons_eq] at hl
      exact Or.inr (Or.inr (Or.inr (Or.inr (Or.inl ⟨rfl, (Option.some.inj hl).symm⟩))))
    rw [lookup_cons_ne _ _ h5] at hl
    by_cases h6 : category = "area"
    · subst h6
      rw [lookup_cons_eq] at hl
      exact Or.inr (Or.inr (Or.inr (Or.inr (Or.inr ⟨rfl, (Option.some.inj hl).symm⟩))))
    rw [lookup_cons_ne _ _ h6] at hl
    simp [List.lookup] at hl

/-! ## Facts about the registry -/

theorem pressure_linear : LinearCategory pressure := by
  refine ⟨rfl, ?_⟩
  intro p hp
  simp only [pressure, List.mem_cons, List.mem_singleton, List.not_mem_nil, or_false] at hp
  rcases hp with rfl | rfl | rfl | rfl | rfl | rfl | rfl | rfl <;>
    exact ⟨_, by norm_num, rfl⟩

theorem length_linear : LinearCategory length := by
  refine ⟨rfl, ?_⟩
  intro p hp
  simp only [length, List.mem_cons, List.mem_singleton, List.not_mem_nil, or_false] at hp
  rcases hp with rfl | rfl | rfl | rfl | rfl | rfl | rfl | rfl <;>
    exact ⟨_, by norm_num, rfl⟩

theorem weight_linear : LinearCategory weight := by
  refine ⟨rfl, ?_⟩
  intro p hp
  simp only [weight, List.mem_cons, List.mem_singleton, List.not_mem_nil, or_false] at hp
  rcases hp with rfl | rfl | rfl | rfl | rfl | rfl <;>
    exact ⟨_, by norm_num, rfl⟩

theorem volume_linear : LinearCategory volume := by
  refine ⟨rfl, ?_⟩
  intro p hp
  simp only [volume, List.mem_cons, List.mem_singleton, List.not_mem_nil, or_false] at hp
  rcases hp with rfl | rfl | rfl | rfl | rfl | rfl | rfl | rfl <;>
    exact ⟨_, by norm_num, rfl⟩

theorem area_linear : LinearCategory area := by
  refine ⟨rfl, ?_⟩
  intro p hp
  simp only [area, List.mem_cons, List.mem_singleton, List.not_mem_nil, or_false] at hp
  rcases hp with rfl | rfl | rfl | rfl | rfl | rfl <;>
    exact ⟨_, by norm_num, rfl⟩

theorem registry_linear_or_temperature (category : String) (categoryData : UnitCategory)
    (h : getProperty unitCategories category = .own categoryData) :
    LinearCategory categoryData ∨ categoryData = temperature := by
  rcases registry_cases category categoryData h with
    ⟨_, rfl⟩ | ⟨_, rfl⟩ | ⟨_, rfl⟩ | ⟨_, rfl⟩ | ⟨_, rfl⟩ | ⟨_, rfl⟩
  · exact Or.inl pressure_linear
  · exact Or.inl length_linear
  · exact Or.inl weight_linear
  · exact Or.inr rfl
  · exact Or.inl volume_linear
  · exact Or.inl area_linear

theorem registry_keys_nodup (category : String) (categoryData : UnitCategory)
    (h : getProperty unitCategories category = .own categoryData) :
    (unitKeys categoryData).Nodup := by
  rcases registry_cases category categoryData h with
    ⟨_, rfl⟩ | ⟨_, rfl⟩ | ⟨_, rfl⟩ | ⟨_, rfl⟩ | ⟨_, rfl⟩ | ⟨_, rfl⟩ <;>
    simp [unitKeys, pressure, length, weight, temperature, volume, area]

theorem temperature_keys (k : String) (h : k ∈ unitKeys temperature) :
    k = "c" ∨ k = "f" ∨ k = "k" := by
  simpa [unitKeys, temperature] using h

/-! ## What the loop computes -/

theorem readToBase_own (units : List (String × UnitDefinition)) (k : String)
    (d : UnitDefinition) (h : units.lookup k = some d) :
    readToBase units k = some d.toBase := by
  simp [readToBase, getProperty, h]

theorem convertedValue_custom (categoryData : UnitCategory)
    (rule : JsNum → String → String → JsVal) (h : categoryData.convert = some rule)
    (u k : String) (v : JsNum) :
    convertedValue categoryData u v k = some (rule v u k) := by
  simp [convertedValue, h]

theorem convertedValue_standard (categoryData : UnitCategory) (h : categoryData.convert = none)
    (u k : String) (v : JsNum) (du dk : UnitDefinition)
    (hu : categoryData.units.lookup u = some du) (hk : categoryData.units.lookup k = some dk) :
    convertedValue categoryData u v k =
      some (.number ((v.mul (toNumber du.toBase)).div (toNumber dk.toBase))) := by
  simp [convertedValue, h, readToBase_own _ _ _ hu, readToBase_own _ _ _ hk]

theorem convertedValue_linear (categoryData : UnitCategory) (h : LinearCategory categoryData)
    (u k : String) (v : ℚ) (hu : u ∈ unitKeys categoryData) (hk : k ∈ unitKeys categoryData) :
    ∃ tu tk : ℚ, 0 < tu ∧ 0 < tk ∧
      (∃ du, categoryData.units.lookup u = some du ∧ du.toBase = .num tu) ∧
      (∃ dk, categoryData.units.lookup k = some dk ∧ dk.toBase = .num tk) ∧
      convertedValue categoryData u (.fin v) k = some (.num (v * tu / tk)) := by
  obtain ⟨du, hdu, hmu⟩ := lookup_of_mem_keys categoryData.units u hu
  obtain ⟨dk, hdk, hmk⟩ := lookup_of_mem_keys categoryData.units k hk
  obtain ⟨tu, htu, hbu⟩ := h.2 _ hmu
  obtain ⟨tk, htk, hbk⟩ := h.2 _ hmk
  refine ⟨tu, tk, htu, htk, ⟨du, hdu, hbu⟩, ⟨dk, hdk, hbk⟩, ?_⟩
  rw [convertedValue_standard categoryData h.1 u k (.fin v) du dk hdu hdk]
  simp only at hbu hbk
  rw [hbu, hbk]
  simp [toNumber, JsNum.mul, JsNum.div, htk.ne.symm]

theorem convertAll_eq (category u : String) (v : JsNum) (categoryData : UnitCategory)
    (hC : getProperty unitCategories category = .own categoryData)
    (hall : ∀ p ∈ categoryData.units, convertedValue categoryData u v p.1 ≠ none) :
    convertAll category u v =
      .returned (categoryData.units.map (pushedEntry categoryData u v)) := by
  simp [convertAll, hC, convertLoop_returned categoryData u v categoryData.units [] hall]

theorem find_eq_lookup {α : Type} (l : List (String × α)) (k : String) :
    l.find? (fun p => p.1 == k) = (l.lookup k).map (fun a => (k, a)) := by
  induction l with
  | nil => simp [List.lookup]
  | cons p rest ih =>
    obtain ⟨k0, a0⟩ := p
    by_cases hk : k = k0
    · subst hk
      simp [List.lookup, List.find?]
    · have hb : (k == k0) = false := by simpa using hk
      have hb2 : (k0 == k) = false := by simpa using fun h => hk h.symm
      simp only [List.lookup, hb, List.find?, hb2]
      exact ih

theorem entryFor_eq (category u k : String) (v : JsNum) (categoryData : UnitCategory)
    (hC : getProperty unitCategories category = .own categoryData)
    (hall : ∀ p ∈ categoryData.units, convertedValue categoryData u v p.1 ≠ none) :
    entryFor category u v k =
      (categoryData.units.lookup k).map (fun d => pushedEntry categoryData u v (k, d)) := by
  unfold entryFor
  rw [convertAll_eq category u v categoryData hC hall, hC]
  simp only [unitKeys]
  rw [lookup_zip_map, find_eq_lookup]
  cases categoryData.units.lookup k <;> rfl

theorem valueFor_eq (category u k : String) (v : JsNum) (categoryData : UnitCategory)
    (hC : getProperty unitCategories category = .own categoryData)
    (hall : ∀ p ∈ categoryData.units, convertedValue categoryData u v p.1 ≠ none)
    (hk : k ∈ unitKeys categoryData) :
    valueFor category u v k = convertedValue categoryData u v k := by
  obtain ⟨d, hd, hm⟩ := lookup_of_mem_keys categoryData.units k hk
  unfold valueFor
  rw [entryFor_eq category u k v categoryData hC hall, hd]
  have hk2 := hall (k, d) hm
  cases hv : convertedValue categoryData u v k with
  | none => exact absurd hv hk2
  | some x => simp [pushedEntry, hv]

theorem steps_succeed_custom (categoryData : UnitCategory)
    (rule : JsNum → String → String → JsVal) (h : categoryData.convert = some rule)
    (u : String) (v : JsNum) :
    ∀ p ∈ categoryData.units, convertedValue categoryData u v p.1 ≠ none := by
  intro p _
  simp [convertedValue_custom categoryData rule h]

theorem steps_succeed_standard (categoryData : UnitCategory) (h : categoryData.convert = none)
    (u : String) (v : JsNum) (du : UnitDefinition)
    (hu : categoryData.units.lookup u = some du) :
    ∀ p ∈ categoryData.units, convertedValue categoryData u v p.1 ≠ none := by
  intro p hp
  have hk : p.1 ∈ categoryData.units.map Prod.fst := List.mem_map_of_mem _ hp
  obtain ⟨dk, hdk, _⟩ := lookup_of_mem_keys categoryData.units p.1 hk
  simp [convertedValue_standard categoryData h u p.1 v du dk hu hdk]

/-! ## The temperature rule on declared units -/

theorem temperatureConvert_declared (v : ℚ) (a b : TempUnit) :
    temperatureConvert (.fin v) a.key b.key = .num (specFromCelsius b (specToCelsius a v)) := by
  cases a <;> cases b <;>
    simp [temperatureConvert, TempUnit.key, specToCelsius, specFromCelsius, toNumber,
      JsNum.sub, JsNum.mul, JsNum.div, JsNum.add] <;> ring

theorem tempUnit_of_key (k : String) (h : k ∈ unitKeys temperature) :
    ∃ a : TempUnit, a.key = k := by
  rcases temperature_keys k h with rfl | rfl | rfl
  · exact ⟨.c, rfl⟩
  · exact ⟨.f, rfl⟩
  · exact ⟨.k, rfl⟩

theorem specTemperature_same (v : ℚ) (a : TempUnit) :
    specFromCelsius a (specToCelsius a v) = v := by
  cases a <;> simp [specToCelsius, specFromCelsius]
  ring

/-! ## Conversions from a declared unit -/

theorem steps_succeed_registry (category u : String) (v : JsNum) (categoryData : UnitCategory)
    (hC : getProperty unitCategories category = .own categoryData)
    (hu : u ∈ unitKeys categoryData) :
    ∀ p ∈ categoryData.units, convertedValue categoryData u v p.1 ≠ none := by
  rcases registry_linear_or_temperature category categoryData hC with hlin | rfl
  · obtain ⟨du, hdu, _⟩ := lookup_of_mem_keys categoryData.units u hu
    exact steps_succeed_standard categoryData hlin.1 u v du hdu
  · exact steps_succeed_custom temperature temperatureConvert rfl u v

theorem convertedValue_finite (category u k : String) (v : ℚ) (categoryData : UnitCategory)
    (hC : getProperty unitCategories category = .own categoryData)
    (hu : u ∈ unitKeys categoryData) (hk : k ∈ unitKeys categoryData) :
    ∃ q : ℚ, convertedValue categoryData u (.fin v) k = some (.num q) := by
  rcases registry_linear_or_temperature category categoryData hC with hlin | rfl
  · obtain ⟨tu, tk, _, _, _, _, h⟩ := convertedValue_linear categoryData hlin u k v hu hk
    exact ⟨_, h⟩
  · obtain ⟨a, rfl⟩ := tempUnit_of_key u hu
    obtain ⟨b, rfl⟩ := tempUnit_of_key k hk
    refine ⟨specFromCelsius b (specToCelsius a v), ?_⟩
    rw [convertedValue_custom temperature temperatureConvert rfl, temperatureConvert_declared]

theorem convertedValue_source (category u : String) (v : ℚ) (categoryData : UnitCategory)
    (hC : getProperty unitCategories category = .own categoryData)
    (hu : u ∈ unitKeys categoryData) :
    convertedValue categoryData u (.fin v) u = some (.num v) := by
  rcases registry_linear_or_temperature category categoryData hC with hlin | rfl
  · obtain ⟨tu, tk, htu, _, ⟨du, hdu, hbu⟩, ⟨dk, hdk, hbk⟩, h⟩ :=
      convertedValue_linear categoryData hlin u u v hu hu
    have hd : du = dk := Option.some.inj (hdu.symm.trans hdk)
    subst hd
    have ht : tu = tk := by
      have := hbu.symm.trans hbk
      simpa using this
    subst ht
    rw [h, mul_div_assoc, div_self htu.ne.symm, mul_one]
  · obtain ⟨a, rfl⟩ := tempUnit_of_key u hu
    rw [convertedValue_custom temperature temperatureConvert rfl, temperatureConvert_declared,
      specTemperature_same]

theorem source_count (l : List (String × UnitDefinition)) (categoryData : UnitCategory)
    (u : String) (v : JsNum) (hnd : (l.map Prod.fst).Nodup) (hu : u ∈ l.map Prod.fst) :
    ((l.map (pushedEntry categoryData u v)).filter (fun e => e.isSource)).length = 1 := by
  have h1 : List.count u (l.map Prod.fst) = 1 := List.count_eq_one_of_mem hnd hu
  rw [← h1, ← List.countP_eq_length_filter, List.countP_map, List.count, List.countP_map]
  apply List.countP_congr
  intro p _
  simp [pushedEntry]

theorem lookup_none_of_not_mem_keys {α : Type} (l : List (String × α)) (k : String)
    (h : k ∉ l.map Prod.fst) : l.lookup k = none := by
  induction l with
  | nil => simp [List.lookup]
  | cons p rest ih =>
    obtain ⟨k0, a0⟩ := p
    have hk : k ≠ k0 := fun e => h (by simp [e])
    have hrest : k ∉ rest.map Prod.fst := fun hm => h (by simp at hm ⊢; exact Or.inr hm)
    rw [lookup_cons_ne a0 rest hk]
    exact ih hrest

theorem registry_units_ne_nil (category : String) (categoryData : UnitCategory)
    (h : unitCategories.lookup category = some categoryData) : categoryData.units ≠ [] := by
  have hC : getProperty unitCategories category = .own categoryData := by
    simp [getProperty, h]
  rcases registry_cases category categoryData hC with
    ⟨_, rfl⟩ | ⟨_, rfl⟩ | ⟨_, rfl⟩ | ⟨_, rfl⟩ | ⟨_, rfl⟩ | ⟨_, rfl⟩ <;>
    simp [pressure, length, weight, temperature, volume, area]

/-- In a category converted by the standard algorithm, the name of an inherited
property used as source unit raises no error: `units[fromUnit].toBase` is `undefined`
and every entry is NaN. -/
theorem convertAll_inherited_name :
    convertAll "weight" "toString" (.fin 1) =
      .returned
        [⟨"Quilograma (kg)", .number .nan, false⟩, ⟨"Grama (g)", .number .nan, false⟩,
         ⟨"Miligrama (mg)", .number .nan, false⟩, ⟨"Tonelada (t)", .number .nan, false⟩,
         ⟨"Libra (lb)", .number .nan, false⟩, ⟨"Onça (oz)", .number .nan, false⟩] := by
  simp [convertAll, getProperty, unitCategories, List.lookup, weight, convertLoop,
    convertedValue, readToBase, objectPrototypeKeys, toNumber, JsNum.mul, JsNum.div]

/-! ## The claims -/

/-- C1. Round trip in linear categories: for a category of the registry without a
`convert` function, declared units `u1`, `u2` and a finite value `v` (an exact
rational), the `u2` entry of `convertAll(C, u1, v)` is a finite number `w`, and the
`u1` entry of `convertAll(C, u2, w)` is `v` again. -/
theorem linear_round_trip (category u1 u2 : String) (categoryData : UnitCategory) (v : ℚ)
    (hC : getProperty unitCategories category = .own categoryData)
    (hlin : categoryData.convert = none)
    (h1 : u1 ∈ unitKeys categoryData) (h2 : u2 ∈ unitKeys categoryData) :
    ∃ w : ℚ, valueFor category u1 (.fin v) u2 = some (.num w) ∧
      valueFor category u2 (.fin w) u1 = some (.num v) := by
  have hL : LinearCategory categoryData := by
    rcases registry_linear_or_temperature category categoryData hC with h | rfl
    · exact h
    · simp [temperature] at hlin
  obtain ⟨t1, t2, ht1, ht2, ⟨d1, hd1, hb1⟩, ⟨d2, hd2, hb2⟩, h12⟩ :=
    convertedValue_linear categoryData hL u1 u2 v h1 h2
  refine ⟨v * t1 / t2, ?_, ?_⟩
  · rw [valueFor_eq category u1 u2 (.fin v) categoryData hC
      (steps_succeed_registry category u1 (.fin v) categoryData hC h1) h2, h12]
  · obtain ⟨s2, s1, _, _, ⟨e2, he2, hc2⟩, ⟨e1, he1, hc1⟩, h21⟩ :=
      convertedValue_linear categoryData hL u2 u1 (v * t1 / t2) h2 h1
    have hs2 : s2 = t2 := by
      have hd : e2 = d2 := Option.some.inj (he2.symm.trans hd2)
      subst hd
      simpa using hc2.symm.trans hb2
    have hs1 : s1 = t1 := by
      have hd : e1 = d1 := Option.some.inj (he1.symm.trans hd1)
      subst hd
      simpa using hc1.symm.trans hb1
    subst hs2 hs1
    rw [valueFor_eq category u2 u1 (.fin (v * s1 / s2)) categoryData hC
      (steps_succeed_registry category u2 (.fin (v * s1 / s2)) categoryData hC h2) h1, h21]
    have e : v * s1 / s2 * s2 / s1 = v := by
      field_simp
    rw [e]

/-- Witness of C1: metres to kilometres and back, for the value 1. -/
theorem linear_round_trip_witness :
    getProperty unitCategories "length" = .own length ∧ length.convert = none ∧
    "m" ∈ unitKeys length ∧ "km" ∈ unitKeys length ∧
    ∃ w : ℚ, valueFor "length" "m" (.fin 1) "km" = some (.num w) ∧
      valueFor "length" "km" (.fin w) "m" = some (.num 1) :=
  ⟨rfl, rfl, by simp [unitKeys, length], by simp [unitKeys, length],
    linear_round_trip "length" "m" "km" length 1 rfl rfl
      (by simp [unitKeys, length]) (by simp [unitKeys, length])⟩

/-- C2, amended: for a category of the registry (temperature included), a declared
unit `u` and a finite value `v`, `convertAll(C, u, v)` returns a list with exactly one
entry whose `isSource` is true; an entry is marked as source exactly when it is the
entry of `u`; and, with numbers read as exact rationals, the value of that entry is
`v`. -/
theorem source_entry (category u : String) (categoryData : UnitCategory) (v : ℚ)
    (hC : getProperty unitCategories category = .own categoryData)
    (hu : u ∈ unitKeys categoryData) :
    ∃ results, convertAll category u (.fin v) = .returned results ∧
      (results.filter (fun e => e.isSource)).length = 1 ∧
      (∃ e, entryFor category u (.fin v) u = some e ∧ e.isSource = true ∧ e.value = .num v) ∧
      ∀ k e, entryFor category u (.fin v) k = some e → (e.isSource = true ↔ k = u) := by
  have hall := steps_succeed_registry category u (.fin v) categoryData hC hu
  refine ⟨_, convertAll_eq category u (.fin v) categoryData hC hall, ?_, ?_, ?_⟩
  · exact source_count categoryData.units categoryData u (.fin v)
      (registry_keys_nodup category categoryData hC) hu
  · obtain ⟨d, hd, _⟩ := lookup_of_mem_keys categoryData.units u hu
    refine ⟨pushedEntry categoryData u (.fin v) (u, d), ?_, ?_, ?_⟩
    · rw [entryFor_eq category u u (.fin v) categoryData hC hall, hd]
      rfl
    · simp [pushedEntry]
    · simp [pushedEntry, convertedValue_source category u v categoryData hC hu]
  · intro k e hke
    rw [entryFor_eq category u k (.fin v) categoryData hC hall] at hke
    cases hl : categoryData.units.lookup k with
    | none => simp [hl] at hke
    | some d =>
      rw [hl] at hke
      have he : e = pushedEntry categoryData u (.fin v) (k, d) := by
        simpa using hke.symm
      subst he
      simp [pushedEntry]

/-- Witness of amended C2: 212 degrees Fahrenheit as the source of a temperature conversion. -/
theorem source_entry_witness :
    getProperty unitCategories "temperature" = .own temperature ∧
    "f" ∈ unitKeys temperature ∧
    ∃ results, convertAll "temperature" "f" (.fin 212) = .returned results ∧
      (results.filter (fun e => e.isSource)).length = 1 ∧
      (∃ e, entryFor "temperature" "f" (.fin 212) "f" = some e ∧ e.isSource = true ∧
        e.value = .num 212) ∧
      ∀ k e, entryFor "temperature" "f" (.fin 212) k = some e → (e.isSource = true ↔ k = "f") :=
  ⟨rfl, by simp [unitKeys, temperature],
    source_entry "temperature" "f" temperature 212 rfl (by simp [unitKeys, temperature])⟩

/-- C3. Length and order of the result: for a category of the registry, a declared
unit `u` and any number `v`, `convertAll(C, u, v)` returns as many entries as the
category declares units, and the i-th entry carries the display name of the i-th
declared unit. -/
theorem result_length_and_order (category u : String) (categoryData : UnitCategory) (v : JsNum)
    (hC : getProperty unitCategories category = .own categoryData)
    (hu : u ∈ unitKeys categoryData) :
    ∃ results, convertAll category u v = .returned results ∧
      results.length = categoryData.units.length ∧
      results.map Entry.unit = categoryData.units.map (fun p => p.2.name) ∧
      ∀ i e p, results.get? i = some e → categoryData.units.get? i = some p →
        e.unit = p.2.name := by
  have hall := steps_succeed_registry category u v categoryData hC hu
  refine ⟨_, convertAll_eq category u v categoryData hC hall, by simp, ?_, ?_⟩
  · simp [pushedEntry, Function.comp_def]
  · intro i e p hi hp
    simp only [List.get?_eq_getElem?, List.getElem?_map, hp, Option.map_some] at hi hp
    rw [hp] at hi
    have he : e = pushedEntry categoryData u v p := by
      simpa using hi.symm
    subst he
    rfl

/-- Witness of C3: a weight conversion from pounds. -/
theorem result_length_and_order_witness :
    getProperty unitCategories "weight" = .own weight ∧ "lb" ∈ unitKeys weight ∧
    ∃ results, convertAll "weight" "lb" (.fin 3) = .returned results ∧
      results.length = weight.units.length ∧
      results.map Entry.unit = weight.units.map (fun p => p.2.name) ∧
      ∀ i e p, results.get? i = some e → weight.units.get? i = some p →
        e.unit = p.2.name :=
  ⟨rfl, by simp [unitKeys, weight],
    result_length_and_order "weight" "lb" weight (.fin 3) rfl (by simp [unitKeys, weight])⟩

/-- C4. Dispatch and linear formula: for a category of the registry, a declared
source unit `u`, any number `v` and a declared unit `k`, the value of the `k` entry of
`convertAll(C, u, v)` is `convert(v, u, k)` when the category has a `convert`
function, and `(v * toBase(u)) / toBase(k)` otherwise. -/
theorem dispatch_and_linear_formula (category u k : String) (categoryData : UnitCategory)
    (v : JsNum)
    (hC : getProperty unitCategories category = .own categoryData)
    (hu : u ∈ unitKeys categoryData) (hk : k ∈ unitKeys categoryData) :
    match categoryData.convert with
    | some convert => valueFor category u v k = some (convert v u k)
    | none =>
      ∃ du dk, categoryData.units.lookup u = some du ∧ categoryData.units.lookup k = some dk ∧
        valueFor category u v k =
          some (.number ((v.mul (toNumber du.toBase)).div (toNumber dk.toBase))) := by
  have hall := steps_succeed_registry category u v categoryData hC hu
  have hv := valueFor_eq category u k v categoryData hC hall hk
  cases hc : categoryData.convert with
  | some rule =>
    simp only
    rw [hv, convertedValue_custom categoryData rule hc]
  | none =>
    simp only
    obtain ⟨du, hdu, _⟩ := lookup_of_mem_keys categoryData.units u hu
    obtain ⟨dk, hdk, _⟩ := lookup_of_mem_keys categoryData.units k hk
    exact ⟨du, dk, hdu, hdk, by
      rw [hv, convertedValue_standard categoryData hc u k v du dk hdu hdk]⟩

/-- Witness of C4: the linear branch, feet to inches in the category `length`. -/
theorem dispatch_and_linear_formula_witness :
    getProperty unitCategories "length" = .own length ∧
    "ft" ∈ unitKeys length ∧ "in" ∈ unitKeys length ∧
    ∃ du dk, length.units.lookup "ft" = some du ∧ length.units.lookup "in" = some dk ∧
      valueFor "length" "ft" (.fin 2) "in" =
        some (.number ((JsNum.mul (.fin 2) (toNumber du.toBase)).div (toNumber dk.toBase))) :=
  ⟨rfl, by simp [unitKeys, length], by simp [unitKeys, length],
    dispatch_and_linear_formula "length" "ft" "in" length (.fin 2) rfl
      (by simp [unitKeys, length]) (by simp [unitKeys, length])⟩

/-- C5. The temperature rule equals the two-step reference: for every finite value
`v` and all units `a`, `b` among `c`, `f`, `k`, the function `convert(v, a, b)`
returns `specFromCelsius b (specToCelsius a v)`. -/
theorem temperature_rule_refines_reference (v : ℚ) (a b : TempUnit) :
    temperatureConvert (.fin v) a.key b.key = .num (specFromCelsius b (specToCelsius a v)) :=
  temperatureConvert_declared v a b

/-- C6, refuted as stated: with the category `temperature` and the undeclared source
unit `x`, no error is raised while the results are built; the loop pushes all three
entries, with `undefined` and NaN as values and no entry marked as source.  The
`TypeError` comes only afterwards, from `units[fromUnit].name` on line 188, when
`results` holds three entries. -/
theorem lookup_failure_counterexample :
    "x" ∉ unitKeys temperature ∧
    convertAll "temperature" "x" (.fin 1) =
      .returned
        [⟨"Celsius (°C)", .undefined, false⟩, ⟨"Fahrenheit (°F)", .number .nan, false⟩,
         ⟨"Kelvin (K)", .number .nan, false⟩] ∧
    resultsBeforeDisplay "temperature" "x" (.fin 1) =
      .typeError
        [⟨"Celsius (°C)", .undefined, false⟩, ⟨"Fahrenheit (°F)", .number .nan, false⟩,
         ⟨"Kelvin (K)", .number .nan, false⟩] ∧
    ∀ built, convertAll "temperature" "x" (.fin 1) ≠ .typeError built := by
  have h : convertAll "temperature" "x" (.fin 1) =
      .returned
        [⟨"Celsius (°C)", .undefined, false⟩, ⟨"Fahrenheit (°F)", .number .nan, false⟩,
         ⟨"Kelvin (K)", .number .nan, false⟩] := by
    simp [convertAll, getProperty, unitCategories, List.lookup, temperature, convertLoop,
      convertedValue, temperatureConvert, toNumber, JsNum.mul, JsNum.div, JsNum.add]
  have hC : getProperty unitCategories "temperature" = .own temperature := rfl
  refine ⟨by simp [unitKeys, temperature], h, ?_, ?_⟩
  · simp [resultsBeforeDisplay, hC, h, getProperty, temperature, List.lookup,
      objectPrototypeKeys]
  · intro built hb
    rw [h] at hb
    cases hb

/-- C6, amended: for a category key that is not a key of the registry, and for a
category of the registry without a `convert` function together with a source unit key
that is neither declared in it nor the name of a property inherited from
`Object.prototype`, `convertAll` raises a `TypeError` for every value, and `results`
is still empty when it does. -/
theorem lookup_failure_standard (category fromUnit : String) (v : JsNum)
    (h : unitCategories.lookup category = none ∨
      ∃ categoryData, unitCategories.lookup category = some categoryData ∧
        categoryData.convert = none ∧ fromUnit ∉ unitKeys categoryData ∧
        fromUnit ∉ objectPrototypeKeys) :
    convertAll category fromUnit v = .typeError [] ∧
      resultsBeforeDisplay category fromUnit v = .typeError [] := by
  suffices hmain : convertAll category fromUnit v = .typeError [] by
    refine ⟨hmain, ?_⟩
    unfold resultsBeforeDisplay
    rw [hmain]
    cases getProperty unitCategories category <;> rfl
  rcases h with h | ⟨categoryData, hcat, hconv, hdecl, hproto⟩
  · unfold convertAll getProperty
    rw [h]
    by_cases hp : category ∈ objectPrototypeKeys
    · simp [hp]
    · simp [hp]
  · have hC : getProperty unitCategories category = .own categoryData := by
      simp [getProperty, hcat]
    have hread : readToBase categoryData.units fromUnit = none := by
      simp [readToBase, getProperty,
        lookup_none_of_not_mem_keys categoryData.units fromUnit hdecl, hproto]
    have hstep : ∀ k, convertedValue categoryData fromUnit v k = none := by
      intro k
      simp [convertedValue, hconv, hread]
    unfold convertAll
    rw [hC]
    exact convertLoop_typeError categoryData fromUnit v categoryData.units []
      (registry_units_ne_nil category categoryData hcat) hstep

/-- Witness of amended C6: the undeclared unit `x` in the category `length`. -/
theorem lookup_failure_standard_witness :
    (unitCategories.lookup "length" = none ∨
      ∃ categoryData, unitCategories.lookup "length" = some categoryData ∧
        categoryData.convert = none ∧ "x" ∉ unitKeys categoryData ∧
        "x" ∉ objectPrototypeKeys) ∧
    convertAll "length" "x" (.fin 1) = .typeError [] ∧
    resultsBeforeDisplay "length" "x" (.fin 1) = .typeError [] :=
  have h : unitCategories.lookup "length" = none ∨
      ∃ categoryData, unitCategories.lookup "length" = some categoryData ∧
        categoryData.convert = none ∧ "x" ∉ unitKeys categoryData ∧
        "x" ∉ objectPrototypeKeys :=
    Or.inr ⟨length, rfl, rfl, by simp [unitKeys, length], by simp [objectPrototypeKeys]⟩
  ⟨h, lookup_failure_standard "length" "x" (.fin 1) h⟩

/-- C7, refuted as stated: the temperature rule raises no error on an unknown unit.
From the unknown unit `x` to `f` it returns NaN, and from `c` to the unknown unit `x`
it returns `undefined`. -/
theorem temperature_unknown_unit_counterexample :
    temperatureConvert (.fin 1) "x" "f" = .number .nan ∧
    temperatureConvert (.fin 1) "c" "x" = .undefined := by
  constructor <;>
    simp [temperatureConvert, toNumber, JsNum.mul, JsNum.div, JsNum.add]

/-- C7, amended: for every number `v`, when `fromUnit` or `toUnit` is not one of `c`,
`f`, `k`, the temperature rule raises no error; it returns NaN when `toUnit` is `f` or
`k`, and `undefined` otherwise. -/
theorem temperature_unknown_unit (v : JsNum) (fromUnit toUnit : String)
    (h : fromUnit ∉ ["c", "f", "k"] ∨ toUnit ∉ ["c", "f", "k"]) :
    temperatureConvert v fromUnit toUnit =
      if toUnit = "f" ∨ toUnit = "k" then .number .nan else .undefined := by
  simp only [List.mem_cons, List.mem_singleton, List.not_mem_nil, or_false, not_or] at h
  rcases h with ⟨h1, h2, h3⟩ | ⟨h1, h2, h3⟩
  · by_cases hc : toUnit = "c"
    · subst hc
      simp [temperatureConvert, h1, h2, h3]
    · by_cases hf : toUnit = "f"
      · subst hf
        simp [temperatureConvert, h1, h2, h3, toNumber, JsNum.mul, JsNum.div, JsNum.add]
      · by_cases hk : toUnit = "k"
        · subst hk
          simp [temperatureConvert, h1, h2, h3, toNumber, JsNum.add]
        · simp [temperatureConvert, hc, hf, hk]
  · simp [temperatureConvert, h1, h2, h3]

/-- Witness of amended C7: from the unknown unit `x` to Kelvin. -/
theorem temperature_unknown_unit_witness :
    ("x" ∉ ["c", "f", "k"] ∨ "k" ∉ ["c", "f", "k"]) ∧
    temperatureConvert (.fin 1) "x" "k" =
      if "k" = "f" ∨ "k" = "k" then .number .nan else .undefined :=
  ⟨Or.inl (by simp), temperature_unknown_unit (.fin 1) "x" "k" (Or.inl (by simp))⟩

/-- With numbers read as exact rationals: for a category of the registry, a declared
unit `u` and a finite value `v`, `convertAll` returns the full list, one entry for
each declared unit, and the value of every entry is a finite number (never
`undefined`, NaN or an infinity).  In binary64 the last part fails by overflow. -/
theorem success_under_precondition (category u : String) (categoryData : UnitCategory) (v : ℚ)
    (hC : getProperty unitCategories category = .own categoryData)
    (hu : u ∈ unitKeys categoryData) :
    ∃ results, convertAll category u (.fin v) = .returned results ∧
      results.length = categoryData.units.length ∧
      ∀ e ∈ results, ∃ q : ℚ, e.value = .num q := by
  have hall := steps_succeed_registry category u (.fin v) categoryData hC hu
  refine ⟨_, convertAll_eq category u (.fin v) categoryData hC hall, by simp, ?_⟩
  intro e he
  obtain ⟨p, hp, rfl⟩ := List.mem_map.mp he
  have hk : p.1 ∈ unitKeys categoryData := List.mem_map_of_mem _ hp
  obtain ⟨q, hq⟩ := convertedValue_finite category u p.1 v categoryData hC hu hk
  exact ⟨q, by simp [pushedEntry, hq]⟩

/-- An instance of the exact statement: a temperature conversion from Kelvin. -/
theorem success_under_precondition_witness :
    getProperty unitCategories "temperature" = .own temperature ∧
    "k" ∈ unitKeys temperature ∧
    ∃ results, convertAll "temperature" "k" (.fin 300) = .returned results ∧
      results.length = temperature.units.length ∧
      ∀ e ∈ results, ∃ q : ℚ, e.value = .num q :=
  ⟨rfl, by simp [unitKeys, temperature],
    success_under_precondition "temperature" "k" temperature 300 rfl
      (by simp [unitKeys, temperature])⟩

/-- C9. Temperature example from Celsius: `convertAll('temperature', 'c', 0)` has 3
entries; the Celsius entry is 0, the Fahrenheit entry 32 and the Kelvin entry
273.15. -/
theorem temperature_example_celsius :
    convertAll "temperature" "c" (.fin 0) =
      .returned
        [⟨"Celsius (°C)", .num 0, true⟩, ⟨"Fahrenheit (°F)", .num 32, false⟩,
         ⟨"Kelvin (K)", .num 273.15, false⟩] ∧
    valueFor "temperature" "c" (.fin 0) "c" = some (.num 0) ∧
    valueFor "temperature" "c" (.fin 0) "f" = some (.num 32) ∧
    valueFor "temperature" "c" (.fin 0) "k" = some (.num 273.15) := by
  have h : convertAll "temperature" "c" (.fin 0) =
      .returned
        [⟨"Celsius (°C)", .num 0, true⟩, ⟨"Fahrenheit (°F)", .num 32, false⟩,
         ⟨"Kelvin (K)", .num 273.15, false⟩] := by
    simp [convertAll, getProperty, unitCategories, List.lookup, temperature, convertLoop,
      convertedValue, temperatureConvert, toNumber, JsNum.mul, JsNum.div, JsNum.add]
  have hC : getProperty unitCategories "temperature" = .own temperature := rfl
  refine ⟨h, ?_, ?_, ?_⟩ <;>
    simp [valueFor, entryFor, hC, h, unitKeys, temperature, List.lookup]

/-- C10. Temperature example from Fahrenheit: in `convertAll('temperature', 'f', 212)`
the Celsius entry is 100 and the Kelvin entry is 373.15 (and the source entry is
212). -/
theorem temperature_example_fahrenheit :
    convertAll "temperature" "f" (.fin 212) =
      .returned
        [⟨"Celsius (°C)", .num 100, false⟩, ⟨"Fahrenheit (°F)", .num 212, true⟩,
         ⟨"Kelvin (K)", .num 373.15, false⟩] ∧
    valueFor "temperature" "f" (.fin 212) "c" = some (.num 100) ∧
    valueFor "temperature" "f" (.fin 212) "k" = some (.num 373.15) := by
  have h : convertAll "temperature" "f" (.fin 212) =
      .returned
        [⟨"Celsius (°C)", .num 100, false⟩, ⟨"Fahrenheit (°F)", .num 212, true⟩,
         ⟨"Kelvin (K)", .num 373.15, false⟩] := by
    simp [convertAll, getProperty, unitCategories, List.lookup, temperature, convertLoop,
      convertedValue, temperatureConvert, toNumber, JsNum.sub, JsNum.mul, JsNum.div,
      JsNum.add]
    norm_num
  have hC : getProperty unitCategories "temperature" = .own temperature := rfl
  refine ⟨h, ?_, ?_⟩ <;>
    simp [valueFor, entryFor, hC, h, unitKeys, temperature, List.lookup]

/-- C11. Length example: in `convertAll('length', 'm', 1)` the `cm` entry is 100, the
`mm` entry is 1000 and the `km` entry is 0.001. -/
theorem length_example_metre :
    convertAll "length" "m" (.fin 1) =
      .returned
        [⟨"Metro (m)", .num 1, true⟩, ⟨"Quilômetro (km)", .num 0.001, false⟩,
         ⟨"Centímetro (cm)", .num 100, false⟩, ⟨"Milímetro (mm)", .num 1000, false⟩,
         ⟨"Milha (mi)", .num (1 / 1609.34), false⟩, ⟨"Jarda (yd)", .num (1 / 0.9144), false⟩,
         ⟨"Pé (ft)", .num (1 / 0.3048), false⟩, ⟨"Polegada (in)", .num (1 / 0.0254), false⟩] ∧
    valueFor "length" "m" (.fin 1) "cm" = some (.num 100) ∧
    valueFor "length" "m" (.fin 1) "mm" = some (.num 1000) ∧
    valueFor "length" "m" (.fin 1) "km" = some (.num 0.001) := by
  have h : convertAll "length" "m" (.fin 1) =
      .returned
        [⟨"Metro (m)", .num 1, true⟩, ⟨"Quilômetro (km)", .num 0.001, false⟩,
         ⟨"Centímetro (cm)", .num 100, false⟩, ⟨"Milímetro (mm)", .num 1000, false⟩,
         ⟨"Milha (mi)", .num (1 / 1609.34), false⟩, ⟨"Jarda (yd)", .num (1 / 0.9144), false⟩,
         ⟨"Pé (ft)", .num (1 / 0.3048), false⟩, ⟨"Polegada (in)", .num (1 / 0.0254), false⟩] := by
    simp [convertAll, getProperty, unitCategories, List.lookup, length, convertLoop,
      convertedValue, readToBase, toNumber, JsNum.mul, JsNum.div]
    norm_num
  have hC : getProperty unitCategories "length" = .own length := rfl
  refine ⟨h, ?_, ?_, ?_⟩ <;>
    simp [valueFor, entryFor, hC, h, unitKeys, length, List.lookup]

/-- C12. Weight example: in `convertAll('weight', 'kg', 1)` the `g` entry is 1000 and
the `lb` entry is `1 / 0.453592`, which lies within 0.000005 of 2.20462. -/
theorem weight_example_kilogram :
    valueFor "weight" "kg" (.fin 1) "g" = some (.num 1000) ∧
    valueFor "weight" "kg" (.fin 1) "lb" = some (.num (1 / 0.453592)) ∧
    |(1 / 0.453592 : ℚ) - 2.20462| < 0.000005 := by
  have h : convertAll "weight" "kg" (.fin 1) =
      .returned
        [⟨"Quilograma (kg)", .num 1, true⟩, ⟨"Grama (g)", .num 1000, false⟩,
         ⟨"Miligrama (mg)", .num 1000000, false⟩, ⟨"Tonelada (t)", .num 0.001, false⟩,
         ⟨"Libra (lb)", .num (1 / 0.453592), false⟩,
         ⟨"Onça (oz)", .num (1 / 0.0283495), false⟩] := by
    simp [convertAll, getProperty, unitCategories, List.lookup, weight, convertLoop,
      convertedValue, readToBase, toNumber, JsNum.mul, JsNum.div]
    norm_num
  have hC : getProperty unitCategories "weight" = .own weight := rfl
  refine ⟨?_, ?_, ?_⟩
  · simp [valueFor, entryFor, hC, h, unitKeys, weight, List.lookup]
  · simp [valueFor, entryFor, hC, h, unitKeys, weight, List.lookup]
  · rw [abs_lt]
    constructor <;> norm_num

/-! ## Registry invariants -/

theorem mem_registry_own (category : String) (categoryData : UnitCategory)
    (h : (category, categoryData) ∈ unitCategories) :
    getProperty unitCategories category = .own categoryData := by
  simp only [unitCategories, List.mem_cons, List.mem_singleton, List.not_mem_nil, or_false,
    Prod.mk.injEq] at h
  rcases h with ⟨rfl, rfl⟩ | ⟨rfl, rfl⟩ | ⟨rfl, rfl⟩ | ⟨rfl, rfl⟩ | ⟨rfl, rfl⟩ | ⟨rfl, rfl⟩ <;>
    rfl

theorem temperature_toBase_null : ∀ p ∈ temperature.units, p.2.toBase = .null := by
  intro p hp
  simp only [temperature, List.mem_cons, List.mem_singleton, List.not_mem_nil, or_false] at hp
  rcases hp with rfl | rfl | rfl <;> rfl

theorem mem_keys_of_lookup {α : Type} (l : List (String × α)) (k : String) (a : α)
    (h : l.lookup k = some a) : k ∈ l.map Prod.fst ∧ (k, a) ∈ l := by
  by_cases hk : k ∈ l.map Prod.fst
  · obtain ⟨b, hb, hm⟩ := lookup_of_mem_keys l k hk
    have e : b = a := Option.some.inj (hb.symm.trans h)
    subst e
    exact ⟨hk, hm⟩
  · rw [lookup_none_of_not_mem_keys l k hk] at h
    cases h

theorem base_unit_count (category : String) (categoryData : UnitCategory)
    (hC : getProperty unitCategories category = .own categoryData)
    (hlin : categoryData.convert = none) :
    (categoryData.units.filter (fun p => decide (p.2.toBase = .num 1))).length = 1 := by
  rcases registry_cases category categoryData hC with
    ⟨_, rfl⟩ | ⟨_, rfl⟩ | ⟨_, rfl⟩ | ⟨_, rfl⟩ | ⟨_, rfl⟩ | ⟨_, rfl⟩
  · simp [pressure, List.filter]
    norm_num
  · simp [length, List.filter]
    norm_num
  · simp [weight, List.filter]
    norm_num
  · simp [temperature] at hlin
  · simp [volume, List.filter]
    norm_num
  · simp [area, List.filter]
    norm_num

/-- C13. Registry well-formedness: every category of `unitCategories` declares at
least one unit; in a category with a `convert` function every unit has `toBase` null;
in a category without one every unit has a positive number as `toBase`. -/
theorem registry_well_formed (category : String) (categoryData : UnitCategory)
    (h : (category, categoryData) ∈ unitCategories) :
    categoryData.units ≠ [] ∧
    (categoryData.convert.isSome = true → ∀ p ∈ categoryData.units, p.2.toBase = .null) ∧
    (categoryData.convert.isSome = false →
      ∀ p ∈ categoryData.units, ∃ t : ℚ, 0 < t ∧ p.2.toBase = .num t) := by
  have hC := mem_registry_own category categoryData h
  have hne : categoryData.units ≠ [] := by
    rcases registry_cases category categoryData hC with
      ⟨_, rfl⟩ | ⟨_, rfl⟩ | ⟨_, rfl⟩ | ⟨_, rfl⟩ | ⟨_, rfl⟩ | ⟨_, rfl⟩ <;>
      simp [pressure, length, weight, temperature, volume, area]
  refine ⟨hne, ?_, ?_⟩
  · intro hc
    rcases registry_linear_or_temperature category categoryData hC with hlin | rfl
    · rw [hlin.1] at hc
      cases hc
    · exact temperature_toBase_null
  · intro hc
    rcases registry_linear_or_temperature category categoryData hC with hlin | rfl
    · exact hlin.2
    · simp [temperature] at hc

/-- Witness of C13: the category `temperature`, whose units all carry a null
`toBase`. -/
theorem registry_well_formed_witness :
    ("temperature", temperature) ∈ unitCategories ∧ temperature.convert.isSome = true ∧
    temperature.units ≠ [] ∧ ∀ p ∈ temperature.units, p.2.toBase = .null :=
  have hmem : ("temperature", temperature) ∈ unitCategories := by
    simp [unitCategories]
  ⟨hmem, rfl, (registry_well_formed "temperature" temperature hmem).1,
    (registry_well_formed "temperature" temperature hmem).2.1 rfl⟩

/-- C14. Base unit: in every category of the registry without a `convert` function
exactly one unit has `toBase` equal to 1, and for such a base unit `b`, a declared
unit `u` with factor `tu` and a finite value `v`, the `b` entry of `convertAll(C, u, v)`
is `v * tu`. -/
theorem base_unit (category : String) (categoryData : UnitCategory)
    (hC : getProperty unitCategories category = .own categoryData)
    (hlin : categoryData.convert = none) :
    (categoryData.units.filter (fun p => decide (p.2.toBase = .num 1))).length = 1 ∧
    ∀ (b u : String) (db du : UnitDefinition) (tu v : ℚ),
      categoryData.units.lookup b = some db → db.toBase = .num 1 →
      categoryData.units.lookup u = some du → du.toBase = .num tu →
      valueFor category u (.fin v) b = some (.num (v * tu)) := by
  refine ⟨base_unit_count category categoryData hC hlin, ?_⟩
  intro b u db du tu v hb hb1 hu hut
  have hbk := (mem_keys_of_lookup categoryData.units b db hb).1
  have huk := (mem_keys_of_lookup categoryData.units u du hu).1
  rw [valueFor_eq category u b (.fin v) categoryData hC
    (steps_succeed_registry category u (.fin v) categoryData hC huk) hbk,
    convertedValue_standard categoryData hlin u b (.fin v) du db hu hb]
  rw [hb1, hut]
  simp [toNumber, JsNum.mul, JsNum.div]

/-- Witness of C14: in the category `volume` the base unit is the litre, and one
gallon is 3.78541 litres. -/
theorem base_unit_witness :
    getProperty unitCategories "volume" = .own volume ∧ volume.convert = none ∧
    (volume.units.filter (fun p => decide (p.2.toBase = .num 1))).length = 1 ∧
    valueFor "volume" "gal" (.fin 1) "l" = some (.num (1 * 3.78541)) :=
  ⟨rfl, rfl, (base_unit "volume" volume rfl rfl).1,
    (base_unit "volume" volume rfl rfl).2 "l" "gal" ⟨"Litro (L)", .num 1⟩
      ⟨"Galão (gal)", .num 3.78541⟩ 3.78541 1 (by simp [volume, List.lookup]) rfl
      (by simp [volume, List.lookup]) rfl⟩

/-! ## Algebraic properties -/

theorem specTemperature_back (x : ℚ) (b : TempUnit) :
    specToCelsius b (specFromCelsius b x) = x := by
  cases b <;> simp [specToCelsius, specFromCelsius]
  ring

theorem factor_of_key (categoryData : UnitCategory) (h : LinearCategory categoryData)
    (u : String) (hu : u ∈ unitKeys categoryData) :
    ∃ (du : UnitDefinition) (tu : ℚ),
      categoryData.units.lookup u = some du ∧ du.toBase = .num tu ∧ 0 < tu := by
  obtain ⟨du, hdu, hmu⟩ := lookup_of_mem_keys categoryData.units u hu
  obtain ⟨tu, htu, hbu⟩ := h.2 _ hmu
  exact ⟨du, tu, hdu, hbu, htu⟩

theorem convertedValue_factors (categoryData : UnitCategory) (h : categoryData.convert = none)
    (u k : String) (v : ℚ) (du dk : UnitDefinition) (tu tk : ℚ)
    (hu : categoryData.units.lookup u = some du) (hbu : du.toBase = .num tu)
    (hk : categoryData.units.lookup k = some dk) (hbk : dk.toBase = .num tk)
    (htk : 0 < tk) :
    convertedValue categoryData u (.fin v) k = some (.num (v * tu / tk)) := by
  rw [convertedValue_standard categoryData h u k (.fin v) du dk hu hk, hbu, hbk]
  simp [toNumber, JsNum.mul, JsNum.div, htk.ne.symm]

theorem registry_linear_of_no_rule (category : String) (categoryData : UnitCategory)
    (hC : getProperty unitCategories category = .own categoryData)
    (hlin : categoryData.convert = none) : LinearCategory categoryData := by
  rcases registry_linear_or_temperature category categoryData hC with h | rfl
  · exact h
  · simp [temperature] at hlin

theorem valueFor_declared (category u k : String) (v : JsNum) (categoryData : UnitCategory)
    (hC : getProperty unitCategories category = .own categoryData)
    (hu : u ∈ unitKeys categoryData) (hk : k ∈ unitKeys categoryData) :
    valueFor category u v k = convertedValue categoryData u v k :=
  valueFor_eq category u k v categoryData hC
    (steps_succeed_registry category u v categoryData hC hu) hk

theorem convertedValue_compose (category u1 u2 u3 : String) (categoryData : UnitCategory)
    (v : ℚ) (hC : getProperty unitCategories category = .own categoryData)
    (h1 : u1 ∈ unitKeys categoryData) (h2 : u2 ∈ unitKeys categoryData)
    (h3 : u3 ∈ unitKeys categoryData) :
    ∃ w r : ℚ, convertedValue categoryData u1 (.fin v) u2 = some (.num w) ∧
      convertedValue categoryData u2 (.fin w) u3 = some (.num r) ∧
      convertedValue categoryData u1 (.fin v) u3 = some (.num r) := by
  rcases registry_linear_or_temperature category categoryData hC with hlin | rfl
  · obtain ⟨d1, t1, hd1, hb1, _⟩ := factor_of_key categoryData hlin u1 h1
    obtain ⟨d2, t2, hd2, hb2, ht2⟩ := factor_of_key categoryData hlin u2 h2
    obtain ⟨d3, t3, hd3, hb3, ht3⟩ := factor_of_key categoryData hlin u3 h3
    refine ⟨v * t1 / t2, v * t1 / t3, ?_, ?_, ?_⟩
    · exact convertedValue_factors categoryData hlin.1 u1 u2 v d1 d2 t1 t2 hd1 hb1 hd2 hb2 ht2
    · rw [convertedValue_factors categoryData hlin.1 u2 u3 (v * t1 / t2) d2 d3 t2 t3
        hd2 hb2 hd3 hb3 ht3]
      have e : v * t1 / t2 * t2 / t3 = v * t1 / t3 := by
        field_simp
      rw [e]
    · exact convertedValue_factors categoryData hlin.1 u1 u3 v d1 d3 t1 t3 hd1 hb1 hd3 hb3 ht3
  · obtain ⟨a, rfl⟩ := tempUnit_of_key u1 h1
    obtain ⟨b, rfl⟩ := tempUnit_of_key u2 h2
    obtain ⟨t, rfl⟩ := tempUnit_of_key u3 h3
    refine ⟨specFromCelsius b (specToCelsius a v), specFromCelsius t (specToCelsius a v),
      ?_, ?_, ?_⟩
    · rw [convertedValue_custom temperature temperatureConvert rfl, temperatureConvert_declared]
    · rw [convertedValue_custom temperature temperatureConvert rfl, temperatureConvert_declared,
        specTemperature_back]
    · rw [convertedValue_custom temperature temperatureConvert rfl, temperatureConvert_declared]

/-- C16. Temperature round trip: for every finite value `v` (an exact rational) and
all units `a`, `b` among `c`, `f`, `k`, `convert(convert(v, a, b), b, a)` is `v`. -/
theorem temperature_round_trip (v : ℚ) (a b : TempUnit) :
    temperatureConvert (toNumber (temperatureConvert (.fin v) a.key b.key)) b.key a.key =
      .num v := by
  rw [temperatureConvert_declared v a b]
  simp only [toNumber]
  rw [temperatureConvert_declared, specTemperature_back, specTemperature_same]

/-- C17, amended: with numbers read as exact rationals, conversions compose.  For a
category of the registry (linear or temperature), declared units `u1`, `u2`, `u3` and
a finite value `v`, the `u2` entry of `convertAll(C, u1, v)` is a finite number `w`, and
the `u3` entry of `convertAll(C, u2, w)` equals the `u3` entry of `convertAll(C, u1, v)`. -/
theorem conversions_compose (category u1 u2 u3 : String) (categoryData : UnitCategory)
    (v : ℚ) (hC : getProperty unitCategories category = .own categoryData)
    (h1 : u1 ∈ unitKeys categoryData) (h2 : u2 ∈ unitKeys categoryData)
    (h3 : u3 ∈ unitKeys categoryData) :
    ∃ w r : ℚ, valueFor category u1 (.fin v) u2 = some (.num w) ∧
      valueFor category u2 (.fin w) u3 = some (.num r) ∧
      valueFor category u1 (.fin v) u3 = some (.num r) := by
  obtain ⟨w, r, e1, e2, e3⟩ := convertedValue_compose category u1 u2 u3 categoryData v hC h1 h2 h3
  refine ⟨w, r, ?_, ?_, ?_⟩
  · rw [valueFor_declared category u1 u2 (.fin v) categoryData hC h1 h2, e1]
  · rw [valueFor_declared category u2 u3 (.fin w) categoryData hC h2 h3, e2]
  · rw [valueFor_declared category u1 u3 (.fin v) categoryData hC h1 h3, e3]

/-- Witness of amended C17: Fahrenheit to Kelvin to Celsius agrees with Fahrenheit to
Celsius, for 50 degrees Fahrenheit. -/
theorem conversions_compose_witness :
    getProperty unitCategories "temperature" = .own temperature ∧
    "f" ∈ unitKeys temperature ∧ "k" ∈ unitKeys temperature ∧ "c" ∈ unitKeys temperature ∧
    ∃ w r : ℚ, valueFor "temperature" "f" (.fin 50) "k" = some (.num w) ∧
      valueFor "temperature" "k" (.fin w) "c" = some (.num r) ∧
      valueFor "temperature" "f" (.fin 50) "c" = some (.num r) :=
  ⟨rfl, by simp [unitKeys, temperature], by simp [unitKeys, temperature],
    by simp [unitKeys, temperature],
    conversions_compose "temperature" "f" "k" "c" temperature 50 rfl
      (by simp [unitKeys, temperature]) (by simp [unitKeys, temperature])
      (by simp [unitKeys, temperature])⟩

/-- C18, amended: with numbers read as exact rationals, the conversion is linear in
the value.  For a category of the registry without a `convert` function, declared
units `u`, `k` and rationals `a`, `v`, `w`, the `k` entry of `convertAll(C, u, a*v + w)`
is `a` times the `k` entry for `v` plus the `k` entry for `w`, and 0 converts to 0.
For temperature this fails: 0 Celsius converts to 32 Fahrenheit. -/
theorem linear_in_value (category u k : String) (categoryData : UnitCategory) (a v w : ℚ)
    (hC : getProperty unitCategories category = .own categoryData)
    (hlin : categoryData.convert = none)
    (hu : u ∈ unitKeys categoryData) (hk : k ∈ unitKeys categoryData) :
    (∃ x y z : ℚ, valueFor category u (.fin (a * v + w)) k = some (.num x) ∧
      valueFor category u (.fin v) k = some (.num y) ∧
      valueFor category u (.fin w) k = some (.num z) ∧ x = a * y + z) ∧
    valueFor category u (.fin 0) k = some (.num 0) ∧
    valueFor "temperature" "c" (.fin 0) "f" = some (.num 32) ∧
    valueFor "temperature" "c" (.fin 0) "f" ≠ some (.num 0) := by
  have hL := registry_linear_of_no_rule category categoryData hC hlin
  obtain ⟨du, tu, hdu, hbu, _⟩ := factor_of_key categoryData hL u hu
  obtain ⟨dk, tk, hdk, hbk, htk⟩ := factor_of_key categoryData hL k hk
  have hval : ∀ x : ℚ, valueFor category u (.fin x) k = some (.num (x * tu / tk)) := by
    intro x
    rw [valueFor_declared category u k (.fin x) categoryData hC hu hk]
    exact convertedValue_factors categoryData hlin u k x du dk tu tk hdu hbu hdk hbk htk
  have htemp : valueFor "temperature" "c" (.fin 0) "f" = some (.num 32) := by
    have hc : "c" ∈ unitKeys temperature := by simp [unitKeys, temperature]
    have hf : "f" ∈ unitKeys temperature := by simp [unitKeys, temperature]
    rw [valueFor_declared "temperature" "c" "f" (.fin 0) temperature rfl hc hf,
      convertedValue_custom temperature temperatureConvert rfl]
    simp [temperatureConvert, toNumber, JsNum.mul, JsNum.div, JsNum.add]
  refine ⟨⟨_, _, _, hval (a * v + w), hval v, hval w, by ring⟩, ?_, htemp, ?_⟩
  · rw [hval 0]
    simp
  · rw [htemp]
    simp

/-- Witness of amended C18: in the category `area`, from hectares to acres. -/
theorem linear_in_value_witness :
    getProperty unitCategories "area" = .own area ∧ area.convert = none ∧
    "ha" ∈ unitKeys area ∧ "acre" ∈ unitKeys area ∧
    (∃ x y z : ℚ, valueFor "area" "ha" (.fin (3 * 2 + 5)) "acre" = some (.num x) ∧
      valueFor "area" "ha" (.fin 2) "acre" = some (.num y) ∧
      valueFor "area" "ha" (.fin 5) "acre" = some (.num z) ∧ x = 3 * y + z) ∧
    valueFor "area" "ha" (.fin 0) "acre" = some (.num 0) ∧
    valueFor "temperature" "c" (.fin 0) "f" = some (.num 32) ∧
    valueFor "temperature" "c" (.fin 0) "f" ≠ some (.num 0) :=
  ⟨rfl, rfl, by simp [unitKeys, area], by simp [unitKeys, area],
    linear_in_value "area" "ha" "acre" area 3 2 5 rfl rfl
      (by simp [unitKeys, area]) (by simp [unitKeys, area])⟩

/-! ## The caller path -/

theorem temperatureConvert_number (v : JsNum) (a b : TempUnit) :
    ∃ n, temperatureConvert v a.key b.key = .number n := by
  cases a <;> cases b <;> simp [temperatureConvert, TempUnit.key, toNumber]

theorem convertedValue_number (category u k : String) (v : JsNum) (categoryData : UnitCategory)
    (hC : getProperty unitCategories category = .own categoryData)
    (hu : u ∈ unitKeys categoryData) (hk : k ∈ unitKeys categoryData) :
    ∃ n, convertedValue categoryData u v k = some (.number n) := by
  rcases registry_linear_or_temperature category categoryData hC with hlin | rfl
  · obtain ⟨du, hdu, _⟩ := lookup_of_mem_keys categoryData.units u hu
    obtain ⟨dk, hdk, _⟩ := lookup_of_mem_keys categoryData.units k hk
    exact ⟨_, convertedValue_standard categoryData hlin.1 u k v du dk hdu hdk⟩
  · obtain ⟨a, rfl⟩ := tempUnit_of_key u hu
    obtain ⟨b, rfl⟩ := tempUnit_of_key k hk
    obtain ⟨n, hn⟩ := temperatureConvert_number v a b
    exact ⟨n, by rw [convertedValue_custom temperature temperatureConvert rfl, hn]⟩

theorem displayRows_ok (precision : JsNum) (digits : Nat)
    (hp : toFixedDigits precision = some digits) (results : List Entry)
    (h : ∀ e ∈ results, ∃ n, e.value = .number n) :
    ∃ rows, displayRows precision results = .ok rows ∧ rows.length = results.length := by
  induction results with
  | nil => exact ⟨[], rfl, rfl⟩
  | cons e rest ih =>
    obtain ⟨n, hn⟩ := h e (by simp)
    obtain ⟨rows, hrows, hlen⟩ := ih (fun x hx => h x (by simp [hx]))
    obtain ⟨row, hrow⟩ : ∃ row, displayRow precision e = .ok row :=
      ⟨{ label := e.unit ++ (if e.isSource then " ← (valor original)" else "")
         highlighted := e.isSource
         value := n
         digits := digits }, by simp only [displayRow, hn, hp]⟩
    refine ⟨row :: rows, ?_, ?_⟩
    · simp only [displayRows, hrow, hrows]
    · simp [hlen]

theorem performConversion_nan (category fromUnit : String) (precision : JsNum) :
    performConversion .nan category fromUnit precision =
      { results := none
        innerHTML := some (.errorMessage "Por favor, insira um valor numérico válido")
        error := none } := by
  simp [performConversion, JsNum.isNaN, showError]

theorem performConversion_number (value : JsNum) (category fromUnit : String)
    (precision : JsNum) (categoryData : UnitCategory) (digits : Nat)
    (hv : value ≠ .nan)
    (hC : getProperty unitCategories category = .own categoryData)
    (hu : fromUnit ∈ unitKeys categoryData)
    (hp : toFixedDigits precision = some digits) :
    ∃ results rows, convertAll category fromUnit value = .returned results ∧
      rows.length = categoryData.units.length ∧
      performConversion value category fromUnit precision =
        { results := some results, innerHTML := some (.table rows), error := none } := by
  have hall := steps_succeed_registry category fromUnit value categoryData hC hu
  have hloop := convertLoop_returned categoryData fromUnit value categoryData.units [] hall
  simp only [List.nil_append] at hloop
  have hnum : ∀ e ∈ categoryData.units.map (pushedEntry categoryData fromUnit value),
      ∃ n, e.value = .number n := by
    intro e he
    obtain ⟨p, hp, rfl⟩ := List.mem_map.mp he
    have hk : p.1 ∈ unitKeys categoryData := List.mem_map_of_mem _ hp
    obtain ⟨n, hn⟩ := convertedValue_number category fromUnit p.1 value categoryData hC hu hk
    exact ⟨n, by simp [pushedEntry, hn]⟩
  obtain ⟨rows, hrows, hlen⟩ := displayRows_ok precision digits hp _ hnum
  obtain ⟨d, hd, _⟩ := lookup_of_mem_keys categoryData.units fromUnit hu
  have hown : getProperty categoryData.units fromUnit = .own d := by
    simp [getProperty, hd]
  have hnan : value.isNaN = false := by
    cases value <;> simp [JsNum.isNaN] at hv ⊢
  refine ⟨_, rows, convertAll_eq category fromUnit value categoryData hC hall, ?_, ?_⟩
  · simpa using hlen
  · simp [performConversion, hnan, hC, hloop, hown, displayResults, hrows]

/-- C15. Non-numeric input is rejected by the caller path: when the parsed value is
NaN, `performConversion` shows the error message, builds no `results` array and
renders no table, whatever the category and source unit; when the parsed value is a
number, the category is a key of the registry, the source unit is declared in it and
the precision is one `toFixed` accepts, the list of `convertAll` is built and a table
with one row per unit is rendered. -/
theorem non_numeric_input_rejected :
    (∀ (category fromUnit : String) (precision : JsNum),
      performConversion .nan category fromUnit precision =
        { results := none
          innerHTML := some (.errorMessage "Por favor, insira um valor numérico válido")
          error := none }) ∧
    (∀ (value : JsNum) (category fromUnit : String) (precision : JsNum)
      (categoryData : UnitCategory) (digits : Nat),
      value ≠ .nan → getProperty unitCategories category = .own categoryData →
      fromUnit ∈ unitKeys categoryData → toFixedDigits precision = some digits →
      ∃ results rows, convertAll category fromUnit value = .returned results ∧
        rows.length = categoryData.units.length ∧
        performConversion value category fromUnit precision =
          { results := some results, innerHTML := some (.table rows), error := none }) :=
  ⟨performConversion_nan, performConversion_number⟩

/-- Witness of C15: 2 pounds at precision 4 renders a table of six rows. -/
theorem non_numeric_input_rejected_witness :
    JsNum.fin 2 ≠ .nan ∧ getProperty unitCategories "weight" = .own weight ∧
    "lb" ∈ unitKeys weight ∧ toFixedDigits (.fin 4) = some 4 ∧
    ∃ results rows, convertAll "weight" "lb" (.fin 2) = .returned results ∧
      rows.length = weight.units.length ∧
      performConversion (.fin 2) "weight" "lb" (.fin 4) =
        { results := some results, innerHTML := some (.table rows), error := none } :=
  ⟨by simp, rfl, by simp [unitKeys, weight], by simp [toFixedDigits],
    non_numeric_input_rejected.2 (.fin 2) "weight" "lb" (.fin 4) weight 4 (by simp) rfl
      (by simp [unitKeys, weight]) (by simp [toFixedDigits])⟩

/-! ## Rounding to binary64 -/

theorem roundHalfEven_eq (y : ℚ) (n : ℤ) (h1 : (n : ℚ) - 1 / 2 < y) (h2 : y < n + 1 / 2) :
    roundHalfEven y = n := by
  by_cases hy : (n : ℚ) ≤ y
  · have hf : ⌊y⌋ = n := Int.floor_eq_iff.2 ⟨hy, by linarith⟩
    have hd : y - (n : ℚ) < 1 / 2 := by linarith
    simp only [roundHalfEven, hf, hd, if_true]
  · have hlt : y < n := not_le.1 hy
    have hf : ⌊y⌋ = n - 1 := Int.floor_eq_iff.2 ⟨by push_cast; linarith, by push_cast; linarith⟩
    have hd : ¬ (y - ((n - 1 : ℤ) : ℚ) < 1 / 2) := by push_cast; linarith
    have hd2 : 1 / 2 < y - ((n - 1 : ℤ) : ℚ) := by push_cast; linarith
    simp only [roundHalfEven, hf, hd, hd2, if_true, if_false]
    ring

theorem floor_le_roundHalfEven (y : ℚ) : ⌊y⌋ ≤ roundHalfEven y := by
  unfold roundHalfEven
  split_ifs <;> omega

theorem roundHalfEven_le (y : ℚ) : roundHalfEven y ≤ ⌊y⌋ + 1 := by
  unfold roundHalfEven
  split_ifs <;> omega

theorem log_two_eq (q : ℚ) (e : ℤ) (hlo : (2 : ℚ) ^ e ≤ q) (hhi : q < 2 ^ (e + 1)) :
    Int.log 2 q = e := by
  have hq : 0 < q := lt_of_lt_of_le (zpow_pos (by norm_num) e) hlo
  have h1 : e ≤ Int.log 2 q := by
    apply (Int.zpow_le_iff_le_log (by norm_num) hq).1
    simpa using hlo
  have h2 : Int.log 2 q < e + 1 := by
    apply (Int.lt_zpow_iff_log_lt (by norm_num) hq).1
    simpa using hhi
  omega

/-- A rounding certificate: `q` lies in the binade `[2^e, 2^(e+1))` and strictly
within half a unit in the last place of `x = n * 2^(e-52)`. -/
theorem roundBinary64_eq (q x : ℚ) (e n : ℤ)
    (h : -1022 ≤ e ∧ (2 : ℚ) ^ e ≤ q ∧ q < 2 ^ (e + 1) ∧
      ((n : ℚ) - 1 / 2) * 2 ^ (e - 52) < q ∧ q < ((n : ℚ) + 1 / 2) * 2 ^ (e - 52) ∧
      x = n * 2 ^ (e - 52) ∧ x < 2 ^ (1024 : ℤ)) :
    roundBinary64 q = .fin x := by
  obtain ⟨he, hlo, hhi, h1, h2, hx, hfin⟩ := h
  have hq : 0 < q := lt_of_lt_of_le (zpow_pos (by norm_num) e) hlo
  have hulp : (0 : ℚ) < 2 ^ (e - 52) := zpow_pos (by norm_num) _
  have hy : roundHalfEven (q / 2 ^ (e - 52)) = n :=
    roundHalfEven_eq _ n ((lt_div_iff₀ hulp).2 h1) ((div_lt_iff₀ hulp).2 h2)
  have hnfin : ¬ ((2 : ℚ) ^ (1024 : ℤ) ≤ n * 2 ^ (e - 52)) := by
    rw [← hx]
    exact not_le.2 hfin
  unfold roundBinary64
  rw [if_neg hq.ne.symm]
  simp only [abs_of_pos hq, log_two_eq q e hlo hhi, max_eq_left he, hy, hnfin, if_false,
    not_lt.2 hq.le, hx]
theorem roundBinary64_overflow (q : ℚ) (h : (2 : ℚ) ^ (1024 : ℤ) ≤ q) :
    roundBinary64 q = .inf false := by
  have hq : 0 < q := lt_of_lt_of_le (by positivity) h
  have hl : (1024 : ℤ) ≤ Int.log 2 q := by
    apply (Int.zpow_le_iff_le_log (by norm_num) hq).1
    rw [Nat.cast_ofNat]
    exact h
  have hlog : ((2 : ℕ) : ℚ) ^ Int.log 2 q ≤ q := Int.zpow_log_le_self (by norm_num) hq
  have hlog2 : (2 : ℚ) ^ Int.log 2 q ≤ q := by simpa using hlog
  have hulp : (0 : ℚ) < 2 ^ (Int.log 2 q - 52) := zpow_pos (by norm_num) _
  have hsplit : (2 : ℚ) ^ Int.log 2 q = 2 ^ (52 : ℤ) * 2 ^ (Int.log 2 q - 52) := by
    rw [← zpow_add₀ (by norm_num : (2 : ℚ) ≠ 0)]
    congr 1
    ring
  have hy : ((2 ^ 52 : ℤ) : ℚ) ≤ q / 2 ^ (Int.log 2 q - 52) := by
    rw [le_div_iff₀ hulp]
    calc ((2 ^ 52 : ℤ) : ℚ) * 2 ^ (Int.log 2 q - 52)
        = 2 ^ (52 : ℤ) * 2 ^ (Int.log 2 q - 52) := by norm_num
      _ = 2 ^ Int.log 2 q := hsplit.symm
      _ ≤ q := hlog2
  have hfl : (2 ^ 52 : ℤ) ≤ roundHalfEven (q / 2 ^ (Int.log 2 q - 52)) :=
    le_trans (Int.le_floor.2 hy) (floor_le_roundHalfEven _)
  have hx : (2 : ℚ) ^ (1024 : ℤ) ≤
      (roundHalfEven (q / 2 ^ (Int.log 2 q - 52)) : ℚ) * 2 ^ (Int.log 2 q - 52) := by
    have hc : ((2 ^ 52 : ℤ) : ℚ) ≤ (roundHalfEven (q / 2 ^ (Int.log 2 q - 52)) : ℚ) := by
      exact_mod_cast hfl
    calc (2 : ℚ) ^ (1024 : ℤ) ≤ 2 ^ Int.log 2 q := zpow_le_zpow_right₀ (by norm_num) hl
      _ = 2 ^ (52 : ℤ) * 2 ^ (Int.log 2 q - 52) := hsplit
      _ = ((2 ^ 52 : ℤ) : ℚ) * 2 ^ (Int.log 2 q - 52) := by norm_num
      _ ≤ _ := mul_le_mul_of_nonneg_right hc hulp.le
  have hmax : max (Int.log 2 q) (-1022) = Int.log 2 q := max_eq_left (by omega)
  unfold roundBinary64
  rw [if_neg hq.ne.symm]
  simp only [abs_of_pos hq, hmax, hx, if_true, not_lt.2 hq.le, decide_False]

/-! ## The rounded conversion -/

theorem temperatureConvertRounded_id :
    temperatureConvertRounded id = temperatureConvert := by
  funext value fromUnit toUnit
  simp [temperatureConvertRounded, temperatureConvert]

theorem convertedValueRounded_id (categoryData : UnitCategory) (fromUnit : String)
    (value : JsNum) (key : String) :
    convertedValueRounded id categoryData fromUnit value key =
      convertedValue categoryData fromUnit value key := by
  simp [convertedValueRounded, convertedValue]

theorem convertLoopRounded_id (categoryData : UnitCategory) (fromUnit : String)
    (value : JsNum) (rest : List (String × UnitDefinition)) (results : List Entry) :
    convertLoopRounded id categoryData fromUnit value rest results =
      convertLoop categoryData fromUnit value rest results := by
  induction rest generalizing results with
  | nil => simp [convertLoopRounded, convertLoop]
  | cons p rest ih =>
    obtain ⟨key, unit⟩ := p
    simp only [convertLoopRounded, convertLoop, convertedValueRounded_id]
    cases convertedValue categoryData fromUnit value key with
    | none => rfl
    | some v => exact ih _

theorem unitCategoriesRounded_id : unitCategoriesRounded id = unitCategories := by
  simp [unitCategoriesRounded, unitCategories, temperatureRounded,
    temperatureConvertRounded_id, temperature]

/-- With the identity as rounding, the rounded conversion is the exact one. -/
theorem convertAllRounded_id (category fromUnit : String) (value : JsNum) :
    convertAllRounded id category fromUnit value = convertAll category fromUnit value := by
  unfold convertAllRounded convertAll
  rw [unitCategoriesRounded_id]
  cases getProperty unitCategories category with
  | own categoryData => exact convertLoopRounded_id _ _ _ _ _
  | inherited => rfl
  | absent => rfl

theorem convertLoopRounded_returned (rnd : JsNum → JsNum) (categoryData : UnitCategory)
    (fromUnit : String) (value : JsNum)
    (rest : List (String × UnitDefinition)) (results : List Entry)
    (h : ∀ p ∈ rest, convertedValueRounded rnd categoryData fromUnit value p.1 ≠ none) :
    convertLoopRounded rnd categoryData fromUnit value rest results =
      .returned (results ++ rest.map (pushedEntryRounded rnd categoryData fromUnit value)) := by
  induction rest generalizing results with
  | nil => simp [convertLoopRounded]
  | cons p rest ih =>
    obtain ⟨key, unit⟩ := p
    have hp := h (key, unit) (by simp)
    cases hv : convertedValueRounded rnd categoryData fromUnit value key with
    | none => exact absurd hv hp
    | some v =>
      have hrest : ∀ q ∈ rest,
          convertedValueRounded rnd categoryData fromUnit value q.1 ≠ none :=
        fun q hq => h q (by simp [hq])
      simp [convertLoopRounded, hv, ih _ hrest, pushedEntryRounded]

theorem convertAllRounded_eq (rnd : JsNum → JsNum) (category u : String) (v : JsNum)
    (categoryData : UnitCategory)
    (hC : getProperty (unitCategoriesRounded rnd) category = .own categoryData)
    (hall : ∀ p ∈ categoryData.units, convertedValueRounded rnd categoryData u v p.1 ≠ none) :
    convertAllRounded rnd category u v =
      .returned (categoryData.units.map (pushedEntryRounded rnd categoryData u v)) := by
  simp [convertAllRounded, hC,
    convertLoopRounded_returned rnd categoryData u v categoryData.units [] hall]

theorem entryForRounded_eq (rnd : JsNum → JsNum) (category u k : String) (v : JsNum)
    (categoryData : UnitCategory)
    (hC : getProperty (unitCategoriesRounded rnd) category = .own categoryData)
    (hall : ∀ p ∈ categoryData.units, convertedValueRounded rnd categoryData u v p.1 ≠ none) :
    entryForRounded rnd category u v k =
      (categoryData.units.lookup k).map
        (fun d => pushedEntryRounded rnd categoryData u v (k, d)) := by
  unfold entryForRounded
  rw [convertAllRounded_eq rnd category u v categoryData hC hall, hC]
  simp only [unitKeys]
  rw [lookup_zip_map, find_eq_lookup]
  cases categoryData.units.lookup k <;> rfl

theorem convertedValueRounded_standard (rnd : JsNum → JsNum) (categoryData : UnitCategory)
    (h : categoryData.convert = none) (u k : String) (v : JsNum) (du dk : UnitDefinition)
    (hu : categoryData.units.lookup u = some du) (hk : categoryData.units.lookup k = some dk) :
    convertedValueRounded rnd categoryData u v k =
      some (.number (rnd ((rnd (v.mul (rnd (toNumber du.toBase)))).div
        (rnd (toNumber dk.toBase))))) := by
  simp [convertedValueRounded, h, readToBase_own _ _ _ hu, readToBase_own _ _ _ hk]

theorem stepsRounded_succeed_standard (rnd : JsNum → JsNum) (categoryData : UnitCategory)
    (h : categoryData.convert = none) (u : String) (v : JsNum) (du : UnitDefinition)
    (hu : categoryData.units.lookup u = some du) :
    ∀ p ∈ categoryData.units, convertedValueRounded rnd categoryData u v p.1 ≠ none := by
  intro p hp
  have hk : p.1 ∈ categoryData.units.map Prod.fst := List.mem_map_of_mem _ hp
  obtain ⟨dk, hdk, _⟩ := lookup_of_mem_keys categoryData.units p.1 hk
  simp [convertedValueRounded_standard rnd categoryData h u p.1 v du dk hu hdk]

theorem stepsRounded_succeed_custom (rnd : JsNum → JsNum) (categoryData : UnitCategory)
    (rule : JsNum → String → String → JsVal) (h : categoryData.convert = some rule)
    (u : String) (v : JsNum) :
    ∀ p ∈ categoryData.units, convertedValueRounded rnd categoryData u v p.1 ≠ none := by
  intro p _
  simp [convertedValueRounded, h]

/-- The entry of a declared unit `k` in a category without a `convert` function, over
the rounded conversion from the declared unit `u`. -/
theorem entryForRounded_standard (rnd : JsNum → JsNum) (category u k : String) (v : JsNum)
    (categoryData : UnitCategory) (du dk : UnitDefinition)
    (hC : getProperty (unitCategoriesRounded rnd) category = .own categoryData)
    (h : categoryData.convert = none)
    (hu : categoryData.units.lookup u = some du) (hk : categoryData.units.lookup k = some dk) :
    entryForRounded rnd category u v k =
      some { unit := dk.name
             value := .number (rnd ((rnd (v.mul (rnd (toNumber du.toBase)))).div
               (rnd (toNumber dk.toBase))))
             isSource := decide (k = u) } := by
  rw [entryForRounded_eq rnd category u k v categoryData hC
    (stepsRounded_succeed_standard rnd categoryData h u v du hu), hk]
  simp [pushedEntryRounded, convertedValueRounded_standard rnd categoryData h u k v du dk hu hk]

/-- One rounded linear conversion of a finite value, from four rounding facts. -/
theorem binary64_linear_step (v tu tk tuR tkR b x : ℚ)
    (h1 : roundBinary64 tu = .fin tuR) (h2 : roundBinary64 tk = .fin tkR) (hk : tkR ≠ 0)
    (hb : roundBinary64 (v * tuR) = .fin b) (hx : roundBinary64 (b / tkR) = .fin x) :
    JsNum.binary64 ((JsNum.binary64 ((JsNum.fin v).mul (JsNum.binary64 (.fin tu)))).div
      (JsNum.binary64 (.fin tk))) = .fin x := by
  simp [JsNum.binary64, h1, h2, JsNum.mul, hb, JsNum.div, hk, hx]
/-! ## Binary64 evaluations -/

theorem binary64_literal_cm :
    roundBinary64 0.01 = .fin (5764607523034235 / 2 ^ 59) :=
  roundBinary64_eq _ _ (-7) 5764607523034235 (by norm_num)

/-- C2, refuted as stated: in binary64 the source entry is recomputed and need not
equal the input.  Converting 7 from `cm`, the `cm` entry is `(7 * 0.01) / 0.01`,
which is `7 + 2^-50` (printed 7.000000000000001), not 7. -/
theorem source_entry_counterexample :
    entryForRounded JsNum.binary64 "length" "cm" (.fin 7) "cm" =
      some ⟨"Centímetro (cm)", .num (7 + 1 / 2 ^ 50), true⟩ ∧
    (7 + 1 / 2 ^ 50 : ℚ) ≠ 7 := by
  have hcm : length.units.lookup "cm" = some ⟨"Centímetro (cm)", .num 0.01⟩ := by
    simp [length, List.lookup]
  have hb : roundBinary64 (7 * (5764607523034235 / 2 ^ 59)) =
      .fin (5044031582654956 / 2 ^ 56) :=
    roundBinary64_eq _ _ (-4) 5044031582654956 (by norm_num)
  have hx : roundBinary64 (5044031582654956 / 2 ^ 56 / (5764607523034235 / 2 ^ 59)) =
      .fin (7 + 1 / 2 ^ 50) :=
    roundBinary64_eq _ _ 2 7881299347898369 (by norm_num)
  refine ⟨?_, by norm_num⟩
  rw [entryForRounded_standard JsNum.binary64 "length" "cm" "cm" (.fin 7) length _ _ rfl rfl
    hcm hcm]
  simp only [toNumber]
  rw [binary64_linear_step 7 0.01 0.01 _ _ _ _ binary64_literal_cm binary64_literal_cm
    (by norm_num) hb hx]
  simp
theorem valueForRounded_standard (rnd : JsNum → JsNum) (category u k : String) (v : JsNum)
    (categoryData : UnitCategory) (du dk : UnitDefinition)
    (hC : getProperty (unitCategoriesRounded rnd) category = .own categoryData)
    (h : categoryData.convert = none)
    (hu : categoryData.units.lookup u = some du) (hk : categoryData.units.lookup k = some dk) :
    valueForRounded rnd category u v k =
      some (.number (rnd ((rnd (v.mul (rnd (toNumber du.toBase)))).div
        (rnd (toNumber dk.toBase))))) := by
  unfold valueForRounded
  rw [entryForRounded_standard rnd category u k v categoryData du dk hC h hu hk]
  rfl

theorem binary64_one : roundBinary64 1 = .fin 1 :=
  roundBinary64_eq _ _ 0 4503599627370496 (by norm_num)

theorem binary64_literal_ft :
    roundBinary64 0.3048 = .fin (5490788665690109 / 2 ^ 54) :=
  roundBinary64_eq _ _ (-2) 5490788665690109 (by norm_num)

theorem binary64_one_metre_in_feet :
    roundBinary64 (1 / (5490788665690109 / 2 ^ 54)) = .fin (7387794664321679 / 2 ^ 51) :=
  roundBinary64_eq _ _ 1 7387794664321679 (by norm_num)

theorem length_lookup_m : length.units.lookup "m" = some ⟨"Metro (m)", .num 1⟩ := by
  simp [length, List.lookup]

theorem length_lookup_ft : length.units.lookup "ft" = some ⟨"Pé (ft)", .num 0.3048⟩ := by
  simp [length, List.lookup]

/-- C17, refuted as stated: in binary64 a conversion through an intermediate unit need
not agree with the direct one.  1 m is 3.280839895013123 ft, and that many feet are
`1 - 2^-53` m (printed 0.9999999999999999), while the `m` entry of the conversion of
1 m is 1. -/
theorem conversions_compose_counterexample :
    valueForRounded JsNum.binary64 "length" "m" (.fin 1) "ft" =
      some (.num (7387794664321679 / 2 ^ 51)) ∧
    valueForRounded JsNum.binary64 "length" "ft" (.fin (7387794664321679 / 2 ^ 51)) "m" =
      some (.num (1 - 1 / 2 ^ 53)) ∧
    valueForRounded JsNum.binary64 "length" "m" (.fin 1) "m" = some (.num 1) ∧
    (1 - 1 / 2 ^ 53 : ℚ) ≠ 1 := by
  have hb1 : roundBinary64 (1 * 1) = .fin 1 := by
    rw [mul_one]
    exact binary64_one
  have hx1 : roundBinary64 (1 / 1) = .fin 1 := by
    rw [div_one]
    exact binary64_one
  have hb2 : roundBinary64 (7387794664321679 / 2 ^ 51 * (5490788665690109 / 2 ^ 54)) =
      .fin (1 - 1 / 2 ^ 53) :=
    roundBinary64_eq _ _ (-1) 9007199254740991 (by norm_num)
  have hx2 : roundBinary64 ((1 - 1 / 2 ^ 53) / 1) = .fin (1 - 1 / 2 ^ 53) :=
    roundBinary64_eq _ _ (-1) 9007199254740991 (by norm_num)
  refine ⟨?_, ?_, ?_, by norm_num⟩
  · rw [valueForRounded_standard JsNum.binary64 "length" "m" "ft" (.fin 1) length _ _ rfl rfl
      length_lookup_m length_lookup_ft]
    simp only [toNumber]
    rw [binary64_linear_step 1 1 0.3048 _ _ _ _ binary64_one binary64_literal_ft
      (by norm_num) hb1 binary64_one_metre_in_feet]
  · rw [valueForRounded_standard JsNum.binary64 "length" "ft" "m" _ length _ _ rfl rfl
      length_lookup_ft length_lookup_m]
    simp only [toNumber]
    rw [binary64_linear_step _ 0.3048 1 _ _ _ _ binary64_literal_ft binary64_one
      (by norm_num) hb2 hx2]
  · rw [valueForRounded_standard JsNum.binary64 "length" "m" "m" (.fin 1) length _ _ rfl rfl
      length_lookup_m length_lookup_m]
    simp only [toNumber]
    rw [binary64_linear_step 1 1 1 _ _ _ _ binary64_one binary64_one (by norm_num) hb1 hx1]

/-- C18, refuted as stated: in binary64 the conversion is not linear in the value.
With `a = 3`, `v = 1`, `w = 0` from `m` to `ft`: the `ft` entry of `3 * 1 + 0` is
9.84251968503937, the entry of 1 is 3.280839895013123 and the entry of 0 is 0; three
times the second plus the third is not the first, whether the combination is formed
exactly or in binary64 (9.842519685039369). -/
theorem linear_in_value_counterexample :
    valueForRounded JsNum.binary64 "length" "m" (.fin (3 * 1 + 0)) "ft" =
      some (.num (5540845998241260 / 2 ^ 49)) ∧
    valueForRounded JsNum.binary64 "length" "m" (.fin 1) "ft" =
      some (.num (7387794664321679 / 2 ^ 51)) ∧
    valueForRounded JsNum.binary64 "length" "m" (.fin 0) "ft" = some (.num 0) ∧
    (5540845998241260 / 2 ^ 49 : ℚ) ≠ 3 * (7387794664321679 / 2 ^ 51) + 0 ∧
    JsNum.binary64 ((JsNum.binary64 ((JsNum.fin 3).mul (.fin (7387794664321679 / 2 ^ 51)))).add
      (.fin 0)) = .fin (5540845998241259 / 2 ^ 49) ∧
    (5540845998241260 / 2 ^ 49 : ℚ) ≠ 5540845998241259 / 2 ^ 49 := by
  have hb1 : roundBinary64 (1 * 1) = .fin 1 := by
    rw [mul_one]
    exact binary64_one
  have hb3 : roundBinary64 ((3 * 1 + 0) * 1) = .fin 3 :=
    roundBinary64_eq _ _ 1 6755399441055744 (by norm_num)
  have hx3 : roundBinary64 (3 / (5490788665690109 / 2 ^ 54)) =
      .fin (5540845998241260 / 2 ^ 49) :=
    roundBinary64_eq _ _ 3 5540845998241260 (by norm_num)
  have hzero : roundBinary64 0 = .fin 0 := by
    simp [roundBinary64]
  have hb0 : roundBinary64 (0 * 1) = .fin 0 := by
    rw [zero_mul]
    exact hzero
  have hx0 : roundBinary64 (0 / (5490788665690109 / 2 ^ 54)) = .fin 0 := by
    rw [zero_div]
    exact hzero
  have ht : roundBinary64 (3 * (7387794664321679 / 2 ^ 51)) =
      .fin (5540845998241259 / 2 ^ 49) :=
    roundBinary64_eq _ _ 3 5540845998241259 (by norm_num)
  have hs : roundBinary64 (5540845998241259 / 2 ^ 49 + 0) =
      .fin (5540845998241259 / 2 ^ 49) :=
    roundBinary64_eq _ _ 3 5540845998241259 (by norm_num)
  refine ⟨?_, ?_, ?_, by norm_num, ?_, by norm_num⟩
  · rw [valueForRounded_standard JsNum.binary64 "length" "m" "ft" _ length _ _ rfl rfl
      length_lookup_m length_lookup_ft]
    simp only [toNumber]
    rw [binary64_linear_step _ 1 0.3048 _ _ _ _ binary64_one binary64_literal_ft
      (by norm_num) hb3 hx3]
  · rw [valueForRounded_standard JsNum.binary64 "length" "m" "ft" (.fin 1) length _ _ rfl rfl
      length_lookup_m length_lookup_ft]
    simp only [toNumber]
    rw [binary64_linear_step 1 1 0.3048 _ _ _ _ binary64_one binary64_literal_ft
      (by norm_num) hb1 binary64_one_metre_in_feet]
  · rw [valueForRounded_standard JsNum.binary64 "length" "m" "ft" (.fin 0) length _ _ rfl rfl
      length_lookup_m length_lookup_ft]
    simp only [toNumber]
    rw [binary64_linear_step 0 1 0.3048 _ _ _ _ binary64_one binary64_literal_ft
      (by norm_num) hb0 hx0]
  · simp only [JsNum.mul, JsNum.add, JsNum.binary64, ht, hs]

theorem binary64_million : roundBinary64 1000000 = .fin 1000000 :=
  roundBinary64_eq _ _ 19 8589934592000000 (by norm_num)

/-- One rounded linear conversion whose product overflows. -/
theorem binary64_linear_overflow (v tu tk tuR tkR : ℚ)
    (h1 : roundBinary64 tu = .fin tuR) (h2 : roundBinary64 tk = .fin tkR) (hk : 0 < tkR)
    (hb : roundBinary64 (v * tuR) = .inf false) :
    JsNum.binary64 ((JsNum.binary64 ((JsNum.fin v).mul (JsNum.binary64 (.fin tu)))).div
      (JsNum.binary64 (.fin tk))) = .inf false := by
  simp [JsNum.binary64, h1, h2, JsNum.mul, hb, JsNum.div, not_lt.2 hk.le]

/-- C8, refuted as stated: in binary64 a finite value can overflow.  The decimal
`1e308` parses to the finite number `5010420900022432 * 2^971`; converting it from
`km2`, the product with the factor 1000000 exceeds the binary64 range and the `m2`
entry and the source entry are `Infinity`. -/
theorem success_binary64_counterexample :
    roundBinary64 (10 ^ 308) = .fin (5010420900022432 * 2 ^ 971) ∧
    valueForRounded JsNum.binary64 "area" "km2" (.fin (5010420900022432 * 2 ^ 971)) "m2" =
      some (.number (.inf false)) ∧
    valueForRounded JsNum.binary64 "area" "km2" (.fin (5010420900022432 * 2 ^ 971)) "km2" =
      some (.number (.inf false)) := by
  have hkm2 : area.units.lookup "km2" = some ⟨"Quilômetro Quadrado (km²)", .num 1000000⟩ := by
    simp [area, List.lookup]
  have hm2 : area.units.lookup "m2" = some ⟨"Metro Quadrado (m²)", .num 1⟩ := by
    simp [area, List.lookup]
  have hover : roundBinary64 (5010420900022432 * 2 ^ 971 * 1000000) = .inf false :=
    roundBinary64_overflow _ (by norm_num)
  refine ⟨roundBinary64_eq _ _ 1023 5010420900022432 (by norm_num), ?_, ?_⟩
  · rw [valueForRounded_standard JsNum.binary64 "area" "km2" "m2" _ area _ _ rfl rfl hkm2 hm2]
    simp only [toNumber]
    rw [binary64_linear_overflow _ 1000000 1 _ _ binary64_million binary64_one
      (by norm_num) hover]
  · rw [valueForRounded_standard JsNum.binary64 "area" "km2" "km2" _ area _ _ rfl rfl hkm2 hkm2]
    simp only [toNumber]
    rw [binary64_linear_overflow _ 1000000 1000000 _ _ binary64_million binary64_million
      (by norm_num) hover]
/-! ## Binary64: no NaN from finite inputs -/

theorem roundBinary64_ne_nan (q : ℚ) : roundBinary64 q ≠ .nan := by
  unfold roundBinary64
  split
  · simp
  · dsimp only
    split
    · simp
    · simp

theorem binary64_ne_nan (x : JsNum) (h : x ≠ .nan) : x.binary64 ≠ .nan := by
  cases x with
  | fin q => exact roundBinary64_ne_nan q
  | inf s => simp [JsNum.binary64]
  | nan => exact absurd rfl h

theorem mul_fin_ne_nan (x : JsNum) (c : ℚ) (hx : x ≠ .nan) (hc : c ≠ 0) :
    x.mul (.fin c) ≠ .nan := by
  cases x with
  | fin q => simp [JsNum.mul]
  | inf s => simp [JsNum.mul, hc]
  | nan => exact absurd rfl hx

theorem div_fin_ne_nan (x : JsNum) (c : ℚ) (hx : x ≠ .nan) (hc : c ≠ 0) :
    x.div (.fin c) ≠ .nan := by
  cases x with
  | fin q => simp [JsNum.div, hc]
  | inf s => simp [JsNum.div]
  | nan => exact absurd rfl hx

theorem add_fin_ne_nan (x : JsNum) (c : ℚ) (hx : x ≠ .nan) : x.add (.fin c) ≠ .nan := by
  cases x with
  | fin q => simp [JsNum.add]
  | inf s => simp [JsNum.add]
  | nan => exact absurd rfl hx

theorem sub_fin_ne_nan (x : JsNum) (c : ℚ) (hx : x ≠ .nan) : x.sub (.fin c) ≠ .nan := by
  cases x with
  | fin q => simp [JsNum.sub]
  | inf s => simp [JsNum.sub]
  | nan => exact absurd rfl hx

/-- A rational in the normal range rounds to a positive finite binary64 value. -/
theorem roundBinary64_pos_fin (q : ℚ) (hlo : (2 : ℚ) ^ (-1022 : ℤ) ≤ q)
    (hhi : q < 2 ^ (1023 : ℤ)) : ∃ x : ℚ, 0 < x ∧ roundBinary64 q = .fin x := by
  have hq : 0 < q := lt_of_lt_of_le (zpow_pos (by norm_num) _) hlo
  have hl1 : (-1022 : ℤ) ≤ Int.log 2 q := by
    apply (Int.zpow_le_iff_le_log (by norm_num) hq).1
    rw [Nat.cast_ofNat]
    exact hlo
  have hl2 : Int.log 2 q < 1023 := by
    apply (Int.lt_zpow_iff_log_lt (by norm_num) hq).1
    rw [Nat.cast_ofNat]
    exact hhi
  have hlow : (2 : ℚ) ^ Int.log 2 q ≤ q := by
    have := Int.zpow_log_le_self (b := 2) (by norm_num) hq
    simpa using this
  have hup : q < (2 : ℚ) ^ (Int.log 2 q + 1) := by
    have := Int.lt_zpow_succ_log_self (b := 2) (by norm_num) q
    simpa using this
  have hulp : (0 : ℚ) < 2 ^ (Int.log 2 q - 52) := zpow_pos (by norm_num) _
  have hsplit : (2 : ℚ) ^ Int.log 2 q = 2 ^ (52 : ℤ) * 2 ^ (Int.log 2 q - 52) := by
    rw [← zpow_add₀ (by norm_num : (2 : ℚ) ≠ 0)]
    congr 1
    ring
  have hsplit2 : (2 : ℚ) ^ (Int.log 2 q + 1) = 2 ^ (53 : ℤ) * 2 ^ (Int.log 2 q - 52) := by
    rw [← zpow_add₀ (by norm_num : (2 : ℚ) ≠ 0)]
    congr 1
    ring
  have hy1 : ((2 ^ 52 : ℤ) : ℚ) ≤ q / 2 ^ (Int.log 2 q - 52) := by
    rw [le_div_iff₀ hulp]
    calc ((2 ^ 52 : ℤ) : ℚ) * 2 ^ (Int.log 2 q - 52)
        = 2 ^ (52 : ℤ) * 2 ^ (Int.log 2 q - 52) := by norm_num
      _ = 2 ^ Int.log 2 q := hsplit.symm
      _ ≤ q := hlow
  have hy2 : q / 2 ^ (Int.log 2 q - 52) < ((2 ^ 53 : ℤ) : ℚ) := by
    rw [div_lt_iff₀ hulp]
    calc q < 2 ^ (Int.log 2 q + 1) := hup
      _ = 2 ^ (53 : ℤ) * 2 ^ (Int.log 2 q - 52) := hsplit2
      _ = ((2 ^ 53 : ℤ) : ℚ) * 2 ^ (Int.log 2 q - 52) := by norm_num
  have hn1 : (2 ^ 52 : ℤ) ≤ roundHalfEven (q / 2 ^ (Int.log 2 q - 52)) :=
    le_trans (Int.le_floor.2 hy1) (floor_le_roundHalfEven _)
  have hn2 : roundHalfEven (q / 2 ^ (Int.log 2 q - 52)) ≤ (2 ^ 53 : ℤ) := by
    have hfl : ⌊q / 2 ^ (Int.log 2 q - 52)⌋ < (2 ^ 53 : ℤ) := Int.floor_lt.2 hy2
    have := roundHalfEven_le (q / 2 ^ (Int.log 2 q - 52))
    omega
  have hc1 : (0 : ℚ) < (roundHalfEven (q / 2 ^ (Int.log 2 q - 52)) : ℚ) := by
    have : (0 : ℤ) < roundHalfEven (q / 2 ^ (Int.log 2 q - 52)) :=
      lt_of_lt_of_le (by norm_num) hn1
    exact_mod_cast this
  have hc2 : (roundHalfEven (q / 2 ^ (Int.log 2 q - 52)) : ℚ) ≤ ((2 ^ 53 : ℤ) : ℚ) := by
    exact_mod_cast hn2
  have hxpos : (0 : ℚ) <
      (roundHalfEven (q / 2 ^ (Int.log 2 q - 52)) : ℚ) * 2 ^ (Int.log 2 q - 52) :=
    mul_pos hc1 hulp
  have hxlt : (roundHalfEven (q / 2 ^ (Int.log 2 q - 52)) : ℚ) * 2 ^ (Int.log 2 q - 52) <
      2 ^ (1024 : ℤ) := by
    calc (roundHalfEven (q / 2 ^ (Int.log 2 q - 52)) : ℚ) * 2 ^ (Int.log 2 q - 52)
        ≤ ((2 ^ 53 : ℤ) : ℚ) * 2 ^ (Int.log 2 q - 52) :=
          mul_le_mul_of_nonneg_right hc2 hulp.le
      _ = 2 ^ (53 : ℤ) * 2 ^ (Int.log 2 q - 52) := by norm_num
      _ = 2 ^ (Int.log 2 q + 1) := hsplit2.symm
      _ ≤ 2 ^ (1023 : ℤ) := zpow_le_zpow_right₀ (by norm_num) (by omega)
      _ < 2 ^ (1024 : ℤ) := zpow_lt_zpow_right₀ (by norm_num) (by norm_num)
  have hmax : max (Int.log 2 q) (-1022) = Int.log 2 q := max_eq_left hl1
  refine ⟨_, hxpos, ?_⟩
  unfold roundBinary64
  rw [if_neg hq.ne.symm]
  simp only [abs_of_pos hq, hmax, not_le.2 hxlt, if_false, not_lt.2 hq.le]
theorem binary64_kelvin_offset : ∃ c : ℚ, 0 < c ∧ JsNum.binary64 (.fin 273.15) = .fin c :=
  roundBinary64_pos_fin 273.15 (by norm_num) (by norm_num)

theorem temperatureConvertRounded_ne_nan (v : JsNum) (hv : v ≠ .nan) (a b : TempUnit) :
    ∃ n, temperatureConvertRounded JsNum.binary64 v a.key b.key = .number n ∧ n ≠ .nan := by
  obtain ⟨c, _, hc⟩ := binary64_kelvin_offset
  have fromF : JsNum.binary64 ((JsNum.binary64 ((JsNum.binary64 (v.sub (.fin 32))).mul
      (.fin 5))).div (.fin 9)) ≠ .nan :=
    binary64_ne_nan _ (div_fin_ne_nan _ 9 (binary64_ne_nan _ (mul_fin_ne_nan _ 5
      (binary64_ne_nan _ (sub_fin_ne_nan v 32 hv)) (by norm_num))) (by norm_num))
  have fromK : JsNum.binary64 (v.sub (.fin c)) ≠ .nan :=
    binary64_ne_nan _ (sub_fin_ne_nan v c hv)
  have toF : ∀ x : JsNum, x ≠ .nan →
      JsNum.binary64 ((JsNum.binary64 ((JsNum.binary64 (x.mul (.fin 9))).div (.fin 5))).add
        (.fin 32)) ≠ .nan := fun x hx =>
    binary64_ne_nan _ (add_fin_ne_nan _ 32 (binary64_ne_nan _ (div_fin_ne_nan _ 5
      (binary64_ne_nan _ (mul_fin_ne_nan x 9 hx (by norm_num))) (by norm_num))))
  have toK : ∀ x : JsNum, x ≠ .nan → JsNum.binary64 (x.add (.fin c)) ≠ .nan := fun x hx =>
    binary64_ne_nan _ (add_fin_ne_nan x c hx)
  cases a <;> cases b
  · exact ⟨v, by simp [temperatureConvertRounded, TempUnit.key], hv⟩
  · exact ⟨_, by simp [temperatureConvertRounded, TempUnit.key, toNumber], toF v hv⟩
  · exact ⟨_, by simp [temperatureConvertRounded, TempUnit.key, toNumber, hc], toK v hv⟩
  · exact ⟨_, by simp [temperatureConvertRounded, TempUnit.key], fromF⟩
  · exact ⟨_, by simp [temperatureConvertRounded, TempUnit.key, toNumber], toF _ fromF⟩
  · exact ⟨_, by simp [temperatureConvertRounded, TempUnit.key, toNumber, hc], toK _ fromF⟩
  · exact ⟨_, by simp [temperatureConvertRounded, TempUnit.key, hc], fromK⟩
  · exact ⟨_, by simp [temperatureConvertRounded, TempUnit.key, toNumber, hc], toF _ fromK⟩
  · exact ⟨_, by simp [temperatureConvertRounded, TempUnit.key, toNumber, hc], toK _ fromK⟩
theorem registryRounded_cases (rnd : JsNum → JsNum) (category : String)
    (categoryData : UnitCategory)
    (h : getProperty (unitCategoriesRounded rnd) category = .own categoryData) :
    categoryData = pressure ∨ categoryData = length ∨ categoryData = weight ∨
    categoryData = temperatureRounded rnd ∨ categoryData = volume ∨ categoryData = area := by
  unfold getProperty at h
  cases hl : (unitCategoriesRounded rnd).lookup category with
  | none =>
    rw [hl] at h
    simp only at h
    split at h <;> cases h
  | some c =>
    rw [hl] at h
    simp only [Lookup.own.injEq] at h
    subst h
    unfold unitCategoriesRounded at hl
    by_cases h1 : category = "pressure"
    · subst h1
      rw [lookup_cons_eq] at hl
      exact Or.inl (Option.some.inj hl).symm
    rw [lookup_cons_ne _ _ h1] at hl
    by_cases h2 : category = "length"
    · subst h2
      rw [lookup_cons_eq] at hl
      exact Or.inr (Or.inl (Option.some.inj hl).symm)
    rw [lookup_cons_ne _ _ h2] at hl
    by_cases h3 : category = "weight"
    · subst h3
      rw [lookup_cons_eq] at hl
      exact Or.inr (Or.inr (Or.inl (Option.some.inj hl).symm))
    rw [lookup_cons_ne _ _ h3] at hl
    by_cases h4 : category = "temperature"
    · subst h4
      rw [lookup_cons_eq] at hl
      exact Or.inr (Or.inr (Or.inr (Or.inl (Option.some.inj hl).symm)))
    rw [lookup_cons_ne _ _ h4] at hl
    by_cases h5 : category = "volume"
    · subst h5
      rw [lookup_cons_eq] at hl
      exact Or.inr (Or.inr (Or.inr (Or.inr (Or.inl (Option.some.inj hl).symm))))
    rw [lookup_cons_ne _ _ h5] at hl
    by_cases h6 : category = "area"
    · subst h6
      rw [lookup_cons_eq] at hl
      exact Or.inr (Or.inr (Or.inr (Or.inr (Or.inr (Option.some.inj hl).symm))))
    rw [lookup_cons_ne _ _ h6] at hl
    simp [List.lookup] at hl

/-- Every `toBase` of the five categories without a `convert` function lies between
one millionth and one million. -/
theorem factors_in_range (categoryData : UnitCategory)
    (h : categoryData = pressure ∨ categoryData = length ∨ categoryData = weight ∨
      categoryData = volume ∨ categoryData = area) :
    categoryData.convert = none ∧
    ∀ p ∈ categoryData.units, ∃ t : ℚ,
      p.2.toBase = .num t ∧ 1 / 1000000 ≤ t ∧ t ≤ 1000000 := by
  rcases h with rfl | rfl | rfl | rfl | rfl
  · refine ⟨rfl, ?_⟩
    intro p hp
    simp only [pressure, List.mem_cons, List.mem_singleton, List.not_mem_nil, or_false] at hp
    rcases hp with rfl | rfl | rfl | rfl | rfl | rfl | rfl | rfl <;>
      exact ⟨_, rfl, by norm_num, by norm_num⟩
  · refine ⟨rfl, ?_⟩
    intro p hp
    simp only [length, List.mem_cons, List.mem_singleton, List.not_mem_nil, or_false] at hp
    rcases hp with rfl | rfl | rfl | rfl | rfl | rfl | rfl | rfl <;>
      exact ⟨_, rfl, by norm_num, by norm_num⟩
  · refine ⟨rfl, ?_⟩
    intro p hp
    simp only [weight, List.mem_cons, List.mem_singleton, List.not_mem_nil, or_false] at hp
    rcases hp with rfl | rfl | rfl | rfl | rfl | rfl <;>
      exact ⟨_, rfl, by norm_num, by norm_num⟩
  · refine ⟨rfl, ?_⟩
    intro p hp
    simp only [volume, List.mem_cons, List.mem_singleton, List.not_mem_nil, or_false] at hp
    rcases hp with rfl | rfl | rfl | rfl | rfl | rfl | rfl | rfl <;>
      exact ⟨_, rfl, by norm_num, by norm_num⟩
  · refine ⟨rfl, ?_⟩
    intro p hp
    simp only [area, List.mem_cons, List.mem_singleton, List.not_mem_nil, or_false] at hp
    rcases hp with rfl | rfl | rfl | rfl | rfl | rfl <;>
      exact ⟨_, rfl, by norm_num, by norm_num⟩

/-- A `toBase` literal between one millionth and one million denotes a positive
finite binary64 value. -/
theorem binary64_factor (d : UnitDefinition) (t : ℚ) (ht : d.toBase = .num t)
    (h1 : 1 / 1000000 ≤ t) (h2 : t ≤ 1000000) :
    ∃ r : ℚ, 0 < r ∧ JsNum.binary64 (toNumber d.toBase) = .fin r := by
  rw [ht]
  exact roundBinary64_pos_fin t (le_trans (by norm_num) h1) (lt_of_le_of_lt h2 (by norm_num))

theorem convertedValueRounded_ne_nan (categoryData : UnitCategory)
    (h : categoryData = pressure ∨ categoryData = length ∨ categoryData = weight ∨
      categoryData = volume ∨ categoryData = area)
    (u k : String) (v : JsNum) (hv : v ≠ .nan)
    (hu : u ∈ unitKeys categoryData) (hk : k ∈ unitKeys categoryData) :
    ∃ n, convertedValueRounded JsNum.binary64 categoryData u v k = some (.number n) ∧
      n ≠ .nan := by
  obtain ⟨hconv, hrange⟩ := factors_in_range categoryData h
  obtain ⟨du, hdu, hmu⟩ := lookup_of_mem_keys categoryData.units u hu
  obtain ⟨dk, hdk, hmk⟩ := lookup_of_mem_keys categoryData.units k hk
  obtain ⟨tu, htu, hu1, hu2⟩ := hrange _ hmu
  obtain ⟨tk, htk, hk1, hk2⟩ := hrange _ hmk
  obtain ⟨ru, hru, eu⟩ := binary64_factor du tu htu hu1 hu2
  obtain ⟨rk, hrk, ek⟩ := binary64_factor dk tk htk hk1 hk2
  refine ⟨_, convertedValueRounded_standard JsNum.binary64 categoryData hconv u k v du dk
    hdu hdk, ?_⟩
  rw [eu, ek]
  exact binary64_ne_nan _ (div_fin_ne_nan _ rk
    (binary64_ne_nan _ (mul_fin_ne_nan v ru hv hru.ne.symm)) hrk.ne.symm)

theorem temperatureRounded_keys (rnd : JsNum → JsNum) (k : String)
    (h : k ∈ unitKeys (temperatureRounded rnd)) : ∃ a : TempUnit, a.key = k :=
  tempUnit_of_key k h

theorem convertedValueRounded_registry (category u k : String) (v : JsNum) (hv : v ≠ .nan)
    (categoryData : UnitCategory)
    (hC : getProperty (unitCategoriesRounded JsNum.binary64) category = .own categoryData)
    (hu : u ∈ unitKeys categoryData) (hk : k ∈ unitKeys categoryData) :
    ∃ n, convertedValueRounded JsNum.binary64 categoryData u v k = some (.number n) ∧
      n ≠ .nan := by
  rcases registryRounded_cases JsNum.binary64 category categoryData hC with
    h | h | h | rfl | h | h
  · exact convertedValueRounded_ne_nan categoryData (Or.inl h) u k v hv hu hk
  · exact convertedValueRounded_ne_nan categoryData (Or.inr (Or.inl h)) u k v hv hu hk
  · exact convertedValueRounded_ne_nan categoryData (Or.inr (Or.inr (Or.inl h))) u k v hv hu hk
  · obtain ⟨a, rfl⟩ := temperatureRounded_keys JsNum.binary64 u hu
    obtain ⟨b, rfl⟩ := temperatureRounded_keys JsNum.binary64 k hk
    obtain ⟨n, hn, hne⟩ := temperatureConvertRounded_ne_nan v hv a b
    exact ⟨n, by simp [convertedValueRounded, temperatureRounded, hn], hne⟩
  · exact convertedValueRounded_ne_nan categoryData (Or.inr (Or.inr (Or.inr (Or.inl h))))
      u k v hv hu hk
  · exact convertedValueRounded_ne_nan categoryData (Or.inr (Or.inr (Or.inr (Or.inr h))))
      u k v hv hu hk

/-- C8, amended: in binary64, for a category of the registry, a declared unit `u` and
a finite value, `convertAll` returns the full list, one entry for each declared unit,
and the value of every entry is a number that is not NaN (never `undefined`); in a
category without a `convert` function every `toBase` denotes a nonzero finite number,
so no division by zero or by null is reached.  The value itself can be an infinity,
by overflow. -/
theorem success_binary64 (category u : String) (categoryData : UnitCategory) (x : ℚ)
    (hC : getProperty (unitCategoriesRounded JsNum.binary64) category = .own categoryData)
    (hu : u ∈ unitKeys categoryData) :
    (∃ results, convertAllRounded JsNum.binary64 category u (.fin x) = .returned results ∧
      results.length = categoryData.units.length ∧
      ∀ e ∈ results, ∃ n, e.value = .number n ∧ n ≠ .nan) ∧
    (categoryData.convert = none → ∀ p ∈ categoryData.units,
      ∃ t : ℚ, t ≠ 0 ∧ JsNum.binary64 (toNumber p.2.toBase) = .fin t) := by
  have hv : JsNum.fin x ≠ .nan := by simp
  have hstep : ∀ p ∈ categoryData.units,
      ∃ n, convertedValueRounded JsNum.binary64 categoryData u (.fin x) p.1 =
        some (.number n) ∧ n ≠ .nan := fun p hp =>
    convertedValueRounded_registry category u p.1 (.fin x) hv categoryData hC hu
      (List.mem_map_of_mem _ hp)
  have hall : ∀ p ∈ categoryData.units,
      convertedValueRounded JsNum.binary64 categoryData u (.fin x) p.1 ≠ none := by
    intro p hp
    obtain ⟨n, hn, _⟩ := hstep p hp
    simp [hn]
  refine ⟨⟨_, convertAllRounded_eq JsNum.binary64 category u (.fin x) categoryData hC hall,
    by simp, ?_⟩, ?_⟩
  · intro e he
    obtain ⟨p, hp, rfl⟩ := List.mem_map.mp he
    obtain ⟨n, hn, hne⟩ := hstep p hp
    exact ⟨n, by simp [pushedEntryRounded, hn], hne⟩
  · intro hconv p hp
    rcases registryRounded_cases JsNum.binary64 category categoryData hC with
      h | h | h | rfl | h | h
    · obtain ⟨t, ht, h1, h2⟩ := (factors_in_range categoryData (Or.inl h)).2 p hp
      obtain ⟨r, hr, er⟩ := binary64_factor p.2 t ht h1 h2
      exact ⟨r, hr.ne.symm, er⟩
    · obtain ⟨t, ht, h1, h2⟩ := (factors_in_range categoryData (Or.inr (Or.inl h))).2 p hp
      obtain ⟨r, hr, er⟩ := binary64_factor p.2 t ht h1 h2
      exact ⟨r, hr.ne.symm, er⟩
    · obtain ⟨t, ht, h1, h2⟩ :=
        (factors_in_range categoryData (Or.inr (Or.inr (Or.inl h)))).2 p hp
      obtain ⟨r, hr, er⟩ := binary64_factor p.2 t ht h1 h2
      exact ⟨r, hr.ne.symm, er⟩
    · simp [temperatureRounded] at hconv
    · obtain ⟨t, ht, h1, h2⟩ :=
        (factors_in_range categoryData (Or.inr (Or.inr (Or.inr (Or.inl h))))).2 p hp
      obtain ⟨r, hr, er⟩ := binary64_factor p.2 t ht h1 h2
      exact ⟨r, hr.ne.symm, er⟩
    · obtain ⟨t, ht, h1, h2⟩ :=
        (factors_in_range categoryData (Or.inr (Or.inr (Or.inr (Or.inr h))))).2 p hp
      obtain ⟨r, hr, er⟩ := binary64_factor p.2 t ht h1 h2
      exact ⟨r, hr.ne.symm, er⟩

/-- Witness of amended C8: the value `1e308` converted from `km2`, where the entries
overflow and are still numbers other than NaN. -/
theorem success_binary64_witness :
    getProperty (unitCategoriesRounded JsNum.binary64) "area" = .own area ∧
    "km2" ∈ unitKeys area ∧
    (∃ results,
      convertAllRounded JsNum.binary64 "area" "km2" (.fin (5010420900022432 * 2 ^ 971)) =
        .returned results ∧
      results.length = area.units.length ∧
      ∀ e ∈ results, ∃ n, e.value = .number n ∧ n ≠ .nan) ∧
    (area.convert = none → ∀ p ∈ area.units,
      ∃ t : ℚ, t ≠ 0 ∧ JsNum.binary64 (toNumber p.2.toBase) = .fin t) :=
  ⟨rfl, by simp [unitKeys, area],
    success_binary64 "area" "km2" area (5010420900022432 * 2 ^ 971) rfl
      (by simp [unitKeys, area])⟩

end UnitConverter
